import Mathlib

/-!
# Spectarr — verification of the entity-resolution / fuzzy-matching pipeline

A shallow embedding, in Lean 4, of the matching pipeline of the Spectarr
repository (TypeScript):

* `src/lib/metadata.ts` — Levenshtein similarity, title normalization,
  candidate scoring, confidence tiers, the TMDB movie/TV enrichment paths
  and the `enrichItems` orchestration;
* `src/lib/tvdb.ts` — the supplemental-catalog (TVDB) resolution
  (`extractTVDBId`, `scoreTVDBResult`, `pickBestResult`, `resolveTVDBId`);
* `src/lib/plex.ts` — the personal-library cross-reference
  (`normalizeTitle`, `matchWithPlex`);
* `src/lib/scan-orchestrator.ts` — the vision-response parsing policy
  (`tryParseJson`) and the per-item merge of Plex results.

JavaScript strings are modelled as `List Char` (UTF-16 subtleties outside
the BMP are ignored; all comparisons in the pipeline are on ordinary text).
JavaScript numbers appearing as scores are modelled as `ℚ` (the pipeline
compares scores against the decimal constants 0.5/0.85/0.1, modelled
exactly). Network calls are modelled as explicit oracle parameters, so all
definitions are pure and executable.
-/

set_option autoImplicit false

namespace Spectarr

/-- JS strings, modelled as lists of characters. -/
abbrev Str := List Char

/-- The character class of the JS regex `\s` (and of `String.prototype.trim`),
restricted to the code points that can realistically occur here:
space, tab, LF, VT, FF, CR, NBSP, BOM. -/
def jsWhitespace (c : Char) : Bool :=
  c = ' ' || c = '\t' || c = '\n' || c = '\x0b' || c = '\x0c' || c = '\r' ||
  c = Char.ofNat 0xa0 || c = Char.ofNat 0xfeff

/-- `String.prototype.toLowerCase`, character-wise (ASCII-adequate). -/
def lowerStr (s : Str) : Str := s.map Char.toLower

/-- `String.prototype.trim`: drop `\s` characters from both ends. -/
def trimStr (s : Str) : Str :=
  ((s.dropWhile jsWhitespace).reverse.dropWhile jsWhitespace).reverse

/-- `String.prototype.includes`: `strIncludes big small` is true iff `small`
occurs as a contiguous substring of `big`. -/
def strIncludes : Str → Str → Bool
  | big, small =>
    match big with
    | [] => small.isEmpty
    | _ :: rest => small.isPrefixOf big || strIncludes rest small

/-- Digit run at the front of a string, as a natural number.
`none` when the string does not start with a digit. -/
def leadingDigits (s : Str) : Option Nat :=
  let ds := s.takeWhile Char.isDigit
  if ds.isEmpty then none
  else some (ds.foldl (fun n c => 10 * n + (Char.toNat c - 48)) 0)

/-- JS `parseInt(s, 10)`: skip leading whitespace, optional sign, then the
leading digit run; `none` models `NaN`. (The base-prefix corner cases of a
radix-less `parseInt` do not arise on the date/id strings parsed here.) -/
def jsParseInt (s : Str) : Option Int :=
  let s1 := s.dropWhile jsWhitespace
  match s1 with
  | '-' :: rest => (leadingDigits rest).map (fun n => -(n : Int))
  | '+' :: rest => (leadingDigits rest).map (fun n => (n : Int))
  | rest => (leadingDigits rest).map (fun n => (n : Int))

/-- Case-insensitive character equality (for `/i` regexes). -/
def ciEq (a b : Char) : Bool := a.toLower = b.toLower

-- ─── A tiny regular-expression engine ─────────────────────
--
-- The season/series-suffix regexes of `stripSeasonSuffix` are all anchored
-- at the end of the string (`...$`, no `m` flag), so a `String.replace`
-- with such a pattern removes the suffix starting at the leftmost position
-- from which the rest of the string is in the pattern's language.  We
-- therefore only need language membership, decided with Brzozowski
-- derivatives.

/-- Regular expressions over `Char`, with predicate-classified atoms. -/
inductive RE where
  | nul : RE
  | eps : RE
  | chr : (Char → Bool) → RE
  | cat : RE → RE → RE
  | alt : RE → RE → RE
  | star : RE → RE

namespace RE

/-- Does the language of `r` contain the empty string? -/
def nullable : RE → Bool
  | nul => false
  | eps => true
  | chr _ => false
  | cat r1 r2 => nullable r1 && nullable r2
  | alt r1 r2 => nullable r1 || nullable r2
  | star _ => true

/-- Smart concatenation (collapses the empty language and ε). -/
def scat : RE → RE → RE
  | nul, _ => nul
  | _, nul => nul
  | eps, r => r
  | r, eps => r
  | r1, r2 => cat r1 r2

/-- Smart alternation (collapses the empty language). -/
def salt : RE → RE → RE
  | nul, r => r
  | r, nul => r
  | r1, r2 => alt r1 r2

/-- Brzozowski derivative of `r` with respect to `c`. -/
def deriv : RE → Char → RE
  | nul, _ => nul
  | eps, _ => nul
  | chr p, c => if p c then eps else nul
  | cat r1 r2, c =>
    if nullable r1 then salt (scat (deriv r1 c) r2) (deriv r2 c)
    else scat (deriv r1 c) r2
  | alt r1 r2, c => salt (deriv r1 c) (deriv r2 c)
  | star r, c => scat (deriv r c) (star r)

/-- Language membership: does `r` accept the entire string `s`? -/
def accepts : RE → Str → Bool
  | r, [] => nullable r
  | r, c :: cs => accepts (deriv r c) cs

/-- `r?` -/
def opt (r : RE) : RE := alt eps r

/-- `r+` -/
def plus (r : RE) : RE := cat r (star r)

/-- Case-insensitive literal word. -/
def word (w : Str) : RE := w.foldr (fun c r => cat (chr (ciEq c)) r) eps

/-- Alternation over a non-empty list (empty list is the empty language). -/
def alts : List RE → RE
  | [] => nul
  | [r] => r
  | r :: rest => alt r (alts rest)

end RE

/-- Leftmost index `i` (if any) such that `s.drop i` is in the language of
`r`; this is where a JS `replace` with the end-anchored pattern `r$` starts
deleting. -/
def findSuffixStart (r : RE) : Str → Option Nat
  | [] => if r.nullable then some 0 else none
  | c :: cs =>
    if r.accepts (c :: cs) then some 0
    else (findSuffixStart r cs).map (· + 1)

/-- `s.replace(/r$/, '')` for an end-anchored pattern: delete the suffix at
the leftmost match position, or return `s` unchanged when there is none. -/
def replaceSuffix (r : RE) (s : Str) : Str :=
  match findSuffixStart r s with
  | some i => s.take i
  | none => s

end Spectarr

namespace Spectarr

-- ─── Title Normalizer (metadata.ts) ───────────────────────

/-- `RE.word` on a string literal. -/
def w (s : String) : RE := RE.word s.toList

/-- Concatenation of a pattern sequence. -/
def cats (l : List RE) : RE := l.foldr RE.cat RE.eps

/-- Single (case-sensitive) literal character. -/
def lit (c : Char) : RE := RE.chr (· = c)

def rws : RE := RE.chr jsWhitespace
def wsStar : RE := RE.star rws
def wsPlus : RE := RE.plus rws
def digitPlus : RE := RE.plus (RE.chr Char.isDigit)
def dashColon : RE := RE.chr (fun c => c = '-' || c = ':')

/-- `(?:season|series)` -/
def seasonOrSeries : RE := RE.alt (w "season") (w "series")

/-- `(?:\d+|first|second|...|tenth)` -/
def numOrOrdinal : RE :=
  RE.alt digitPlus (RE.alts
    [w "first", w "second", w "third", w "fourth", w "fifth",
     w "sixth", w "seventh", w "eighth", w "ninth", w "tenth"])

/-- `(?:the\s+)?` -/
def theOpt : RE := RE.opt (RE.cat (w "the") wsPlus)

/-- `(?:complete\s+)?` -/
def completeOpt : RE := RE.opt (RE.cat (w "complete") wsPlus)

/-- `/\s*\((?:season|series|s)\s*\d+\)\s*$/i` -/
def seasonPat1 : RE :=
  cats [wsStar, lit '(', RE.alt seasonOrSeries (w "s"), wsStar, digitPlus,
        lit ')', wsStar]

/-- `/\s*[-:]\s*(?:the\s+)?(?:complete\s+)?(?:season|series)\s+(?:\d+|first|...|tenth)\s*$/i` -/
def seasonPat2 : RE :=
  cats [wsStar, dashColon, wsStar, theOpt, completeOpt, seasonOrSeries,
        wsPlus, numOrOrdinal, wsStar]

/-- `/\s+(?:the\s+)?(?:complete\s+)?(?:season|series)\s+(?:\d+|first|...|tenth)\s*$/i` -/
def seasonPat3 : RE :=
  cats [wsPlus, theOpt, completeOpt, seasonOrSeries, wsPlus, numOrOrdinal,
        wsStar]

/-- `/\s*[-:]\s*s\d+\s*$/i` -/
def seasonPat4 : RE :=
  cats [wsStar, dashColon, wsStar, w "s", digitPlus, wsStar]

/-- `/\s*[-:]\s*(?:the\s+)?complete\s+series\s*$/i` -/
def seasonPat5 : RE :=
  cats [wsStar, dashColon, wsStar, theOpt, w "complete", wsPlus, w "series",
        wsStar]

/-- `/\s*[-:]\s*(?:the\s+)?complete\s+(?:first|...|tenth|\d+(?:st|nd|rd|th)?)\s+season\s*$/i` -/
def seasonPat6 : RE :=
  cats [wsStar, dashColon, wsStar, theOpt, w "complete", wsPlus,
        RE.alt (RE.alts
          [w "first", w "second", w "third", w "fourth", w "fifth",
           w "sixth", w "seventh", w "eighth", w "ninth", w "tenth"])
          (RE.cat digitPlus
            (RE.opt (RE.alts [w "st", w "nd", w "rd", w "th"]))),
        wsPlus, w "season", wsStar]

/-- `stripSeasonSuffix` (metadata.ts): the five sequential end-anchored
`replace`s followed by `trim()`. -/
def stripSeasonSuffix (s : Str) : Str :=
  trimStr (replaceSuffix seasonPat6 (replaceSuffix seasonPat5
    (replaceSuffix seasonPat4 (replaceSuffix seasonPat3
      (replaceSuffix seasonPat2 (replaceSuffix seasonPat1 s))))))

/-- Case-insensitively drop `kw` from the front of `s`; `none` when `kw` is
not a prefix. -/
def dropCI : Str → Str → Option Str
  | [], s => some s
  | _, [] => none
  | k :: ks, c :: cs => if ciEq k c then dropCI ks cs else none

/-- One alternative of `/^(the|a|an)\s+/i`: the keyword must be followed by
at least one whitespace character; the greedy `\s+` swallows the whole run. -/
def tryArticle (kw : String) (s : Str) : Option Str :=
  match dropCI kw.toList s with
  | some (c :: rest) =>
    if jsWhitespace c then some ((c :: rest).dropWhile jsWhitespace) else none
  | _ => none

/-- `stripArticle` (metadata.ts): `s.replace(/^(the|a|an)\s+/i, '').trim()`. -/
def stripArticle (s : Str) : Str :=
  trimStr (((tryArticle "the" s).or ((tryArticle "a" s).or
    (tryArticle "an" s))).getD s)

/-- `/\s*\(\d{4}\)\s*$/` — the trailing year decoration. -/
def yearParenPat : RE :=
  cats [wsStar, lit '(', RE.chr Char.isDigit, RE.chr Char.isDigit,
        RE.chr Char.isDigit, RE.chr Char.isDigit, lit ')', wsStar]

/-- `extractSeriesName` (metadata.ts): season stripping plus removal of a
trailing `(YYYY)` year, then `trim()`. -/
def extractSeriesName (title : Str) : Str :=
  trimStr (replaceSuffix yearParenPat (stripSeasonSuffix title))

end Spectarr

namespace Spectarr

-- ─── Similarity Scorer (metadata.ts) ──────────────────────

/-- One cell-by-cell pass of the Levenshtein DP: given the previous row and
the character `c` of the query, produce the tail of the next row.
`pPrev` is `dp[i-1][j-1]`, `pRest` holds `dp[i-1][j..]`, `nPrev` is
`dp[i][j-1]`. -/
def levGo (c : Char) : List Char → Nat → List Nat → Nat → List Nat
  | [], _, _, _ => []
  | bj :: bs, pPrev, pRest, nPrev =>
    match pRest with
    | [] => []
    | pj :: rest =>
      let nj := if bj = c then pPrev else 1 + min pj (min nPrev pPrev)
      nj :: levGo c bs pj rest nj

/-- Next row of the Levenshtein DP for query character `c`. -/
def levStep (c : Char) (b : Str) (prev : List Nat) : List Nat :=
  let p0 := prev.headD 0
  (p0 + 1) :: levGo c b p0 (prev.tailD []) (p0 + 1)

/-- `levenshtein` (metadata.ts): classic DP edit distance, unit costs. -/
def levenshtein (a b : Str) : Nat :=
  (a.foldl (fun prev c => levStep c b prev) (List.range (b.length + 1))).getLastD 0

/-- `normalizedSimilarity` (metadata.ts):
`1 - levenshtein(a,b) / max(len a, len b)`, and `1` when both empty. -/
def normalizedSimilarity (a b : Str) : ℚ :=
  if a.length = 0 ∧ b.length = 0 then 1
  else
    let maxLen := max a.length b.length
    if maxLen = 0 then 1
    else 1 - (levenshtein a b : ℚ) / (maxLen : ℚ)

/-- `computeTitleScore` (metadata.ts): similarity of the lowercased,
article-stripped strings, and of the season-suffix-stripped query against
the same candidate; the better of the two. -/
def computeTitleScore (queryTitle resultTitle : Str) : ℚ :=
  let t1 := stripArticle (lowerStr queryTitle)
  let t2 := stripArticle (lowerStr resultTitle)
  let rawScore := normalizedSimilarity t1 t2
  let t1Stripped := stripArticle (lowerStr (stripSeasonSuffix queryTitle))
  let strippedScore := normalizedSimilarity t1Stripped t2
  max rawScore strippedScore

-- ─── Data model (types.ts) ────────────────────────────────

inductive ItemType where
  | movie | tv | dvd | vinyl | game | other
deriving DecidableEq, Repr

inductive Confidence where
  | high | low | unmatched
deriving DecidableEq, Repr

inductive MetadataSource where
  | tmdb | plex | none
deriving DecidableEq, Repr

/-- `LLMIdentifiedItem` (types.ts); `year : none` models an absent
(`undefined`) year. -/
structure LLMIdentifiedItem where
  title : Str
  creator : Str
  type : ItemType
  year : Option Int
deriving DecidableEq, Repr

/-- `EnrichedItem` (types.ts). `Option` models `null`/`undefined` fields. -/
structure EnrichedItem where
  title : Str
  creator : Str
  type : ItemType
  confidence : Confidence
  source : MetadataSource
  tmdbId : Option Int
  imdbId : Option Str
  tvdbId : Option Int
  posterUrl : Option Str
  overview : Option Str
  rating : Option ℚ
  releaseDate : Option Str
  genres : Option Str
  year : Option Int
  director : Option Str
  runtime : Option Int
  network : Option Str
  seasons : Option Int
  showStatus : Option Str
  plexMatch : Bool
  plexRatingKey : Option Str
deriving DecidableEq, Repr

/-- `scoreToConfidence` (metadata.ts). -/
def scoreToConfidence (score : ℚ) : Confidence :=
  if (85 : ℚ)/100 ≤ score then .high
  else if (1 : ℚ)/2 ≤ score then .low
  else .unmatched

/-- `buildUnmatched` (metadata.ts): the all-null unmatched record. -/
def buildUnmatched (item : LLMIdentifiedItem) : EnrichedItem where
  title := item.title
  creator := item.creator
  type := item.type
  confidence := .unmatched
  source := .none
  tmdbId := Option.none
  imdbId := Option.none
  tvdbId := Option.none
  posterUrl := Option.none
  overview := Option.none
  rating := Option.none
  releaseDate := Option.none
  genres := Option.none
  year := item.year
  director := Option.none
  runtime := Option.none
  network := Option.none
  seasons := Option.none
  showStatus := Option.none
  plexMatch := false
  plexRatingKey := Option.none

end Spectarr

namespace Spectarr

-- ─── TMDB adapter responses (metadata.ts) ─────────────────

/-- `TMDBMovieResult` (metadata.ts): the fields the pipeline reads.
`release_date : Option Str` models `string | undefined`, with the empty
string also counting as falsy where the code tests it. -/
structure TMDBMovieResult where
  id : Int
  title : Str
  overview : Option Str
  release_date : Option Str
  poster_path : Option Str
  genre_ids : List Int
  vote_average : Option ℚ
deriving DecidableEq, Repr

/-- `TMDBTVResult` (metadata.ts): the fields the pipeline reads. -/
structure TMDBTVResult where
  id : Int
  name : Str
  overview : Option Str
  first_air_date : Option Str
  poster_path : Option Str
  genre_ids : List Int
  vote_average : Option ℚ
deriving DecidableEq, Repr

/-- `TMDBMovieDetails` (metadata.ts): `crew` is the
`credits?.crew` list of `(job, name)` pairs. -/
structure TMDBMovieDetails where
  imdb_id : Option Str
  runtime : Option Int
  crew : Option (List (Str × Str))
deriving DecidableEq, Repr

/-- `TMDBTVDetails` (metadata.ts): `networks` and `created_by` hold the
`name` fields of the corresponding response arrays. -/
structure TMDBTVDetails where
  imdb_id : Option Str
  number_of_seasons : Option Int
  status : Option Str
  networks : Option (List Str)
  created_by : Option (List Str)
deriving DecidableEq, Repr

/-- Oracle for the TMDB movie endpoints: `search title year` stands for the
(fail-soft) result list of `searchTMDBMovies`, `details id` for
`getMovieDetails`. -/
structure MovieEnv where
  search : Str → Option Int → List TMDBMovieResult
  details : Int → Option TMDBMovieDetails

/-- Oracle for the TMDB TV endpoints. -/
structure TVEnv where
  search : Str → Option Int → List TMDBTVResult
  details : Int → Option TMDBTVDetails

/-- The genre cache (`genreCache.get`). -/
abbrev GenreMap := Int → Option Str

-- ─── JS truthiness helpers ────────────────────────────────

/-- Truthiness of a `number | undefined | null` (`0` is falsy). -/
def truthyNum : Option Int → Bool
  | Option.none => false
  | some n => n != 0

/-- Truthiness of a `string | undefined | null` (`''` is falsy). -/
def truthyStr : Option Str → Bool
  | Option.none => false
  | some s => !s.isEmpty

/-- JS `a || b` on an optional string `a` (empty string falls through). -/
def jsOrStr (a : Option Str) (b : Str) : Str :=
  match a with
  | some s => if s.isEmpty then b else s
  | Option.none => b

-- ─── Candidate scoring and selection (metadata.ts) ────────

/-- `resolveGenres` (metadata.ts): id list → comma-joined names from the
genre cache (`filter(Boolean)` drops missing and empty names). -/
def resolveGenres (g : GenreMap) (genreIds : List Int) : Option Str :=
  if genreIds.isEmpty then Option.none
  else
    let names := (genreIds.filterMap g).filter (fun s => !s.isEmpty)
    if names.isEmpty then Option.none
    else some (List.intercalate (", ".toList) names)

/-- `result.release_date ? parseInt(result.release_date.slice(0, 4)) : 0`;
`none` models `NaN`. -/
def parsedYear (rd : Option Str) : Option Int :=
  if truthyStr rd then rd.bind (fun d => jsParseInt (d.take 4))
  else some 0

/-- The `+0.10` year-match bonus (`item.year && resultYear === item.year`). -/
def yearBonus (itemYear resultYear : Option Int) : ℚ :=
  match itemYear with
  | some y => if y ≠ 0 ∧ resultYear = some y then (1 : ℚ)/10 else 0
  | Option.none => 0

/-- `totalScore` of one movie candidate: `Math.min(score + yearBonus, 1)`. -/
def movieCandidateScore (item : LLMIdentifiedItem) (r : TMDBMovieResult) : ℚ :=
  min (computeTitleScore item.title r.title
       + yearBonus item.year (parsedYear r.release_date)) 1

/-- `totalScore` of one TV candidate. -/
def tvCandidateScore (item : LLMIdentifiedItem) (r : TMDBTVResult) : ℚ :=
  min (computeTitleScore item.title r.name
       + yearBonus item.year (parsedYear r.first_air_date)) 1

/-- One step of the best-candidate loop: update the running best when the
candidate scores strictly higher (`totalScore > bestScore`). -/
def bestStep {α : Type} (f : α → ℚ) (acc : Option α × ℚ) (r : α) : Option α × ℚ :=
  if acc.2 < f r then (some r, f r) else acc

/-- The best-candidate loop of `enrichMovie`/`enrichTV`/`pickBestResult`:
fold over the candidates starting from `bestResult = null, bestScore = 0`. -/
def selectBest {α : Type} (f : α → ℚ) (l : List α) : Option α × ℚ :=
  l.foldl (bestStep f) (Option.none, 0)

-- ─── Movie / TV enrichment (metadata.ts) ──────────────────

/-- `TMDB_IMAGE_BASE` -/
def tmdbImageBase : Str := "https://image.tmdb.org/t/p/w500".toList

/-- `releaseYear`: `best.release_date ? parseInt(best.release_date.slice(0,4)) : null`
(`none` also models a `NaN` parse). -/
def releaseYearOf (rd : Option Str) : Option Int :=
  if truthyStr rd then rd.bind (fun d => jsParseInt (d.take 4))
  else Option.none

/-- `best.poster_path ? TMDB_IMAGE_BASE + poster_path : null`. -/
def posterUrlOf (pp : Option Str) : Option Str :=
  if truthyStr pp then pp.map (fun p => tmdbImageBase ++ p)
  else Option.none

/-- `enrichMovie` (metadata.ts), with the TMDB calls supplied by `env`. -/
def enrichMovie (g : GenreMap) (env : MovieEnv) (item : LLMIdentifiedItem) :
    EnrichedItem :=
  let results := env.search item.title item.year
  if results.isEmpty then buildUnmatched item
  else
    let best := selectBest (movieCandidateScore item) results
    match best.1 with
    | Option.none => buildUnmatched item
    | some bestResult =>
      let confidence := scoreToConfidence best.2
      if confidence = .unmatched then buildUnmatched item
      else
        let details := env.details bestResult.id
        let director := details.bind (fun d => d.crew.bind (fun crew =>
          (crew.find? (fun c => c.1 = "Director".toList)).map (·.2)))
        let runtime := details.bind (·.runtime)
        let imdbId := details.bind (·.imdb_id)
        { title := item.title
          creator := jsOrStr director item.creator
          type := .movie
          confidence := confidence
          source := .tmdb
          tmdbId := some bestResult.id
          imdbId := imdbId
          tvdbId := Option.none
          posterUrl := posterUrlOf bestResult.poster_path
          overview := bestResult.overview.map (List.take 500)
          rating := bestResult.vote_average
          releaseDate := bestResult.release_date
          genres := resolveGenres g bestResult.genre_ids
          year := releaseYearOf bestResult.release_date
          director := director
          runtime := runtime
          network := Option.none
          seasons := Option.none
          showStatus := Option.none
          plexMatch := false
          plexRatingKey := Option.none }

/-- `item.year && item.year > 0` (the no-year-retry guard of `enrichTV`). -/
def yearPositive : Option Int → Bool
  | some y => decide (0 < y)
  | Option.none => false

/-- The TV search-with-fallbacks of `enrichTV`: cleaned title, then the
original title, then the cleaned title without the year filter. -/
def tvSearchResults (env : TVEnv) (item : LLMIdentifiedItem) :
    List TMDBTVResult :=
  let seriesName := extractSeriesName item.title
  let searchTitle := if seriesName ≠ item.title then seriesName else item.title
  let results := env.search searchTitle item.year
  let results :=
    if results.isEmpty ∧ searchTitle ≠ item.title then
      env.search item.title item.year
    else results
  if results.isEmpty ∧ yearPositive item.year then
    env.search searchTitle Option.none
  else results

/-- `enrichTV` (metadata.ts), with the TMDB calls supplied by `env`. -/
def enrichTV (g : GenreMap) (env : TVEnv) (item : LLMIdentifiedItem) :
    EnrichedItem :=
  let results := tvSearchResults env item
  if results.isEmpty then buildUnmatched item
  else
    let best := selectBest (tvCandidateScore item) results
    match best.1 with
    | Option.none => buildUnmatched item
    | some bestResult =>
      let confidence := scoreToConfidence best.2
      if confidence = .unmatched then buildUnmatched item
      else
        let details := env.details bestResult.id
        let imdbId := details.bind (·.imdb_id)
        let network := details.bind (fun d => d.networks.bind List.head?)
        let seasons := details.bind (·.number_of_seasons)
        let showStatus := details.bind (·.status)
        let createdBy := details.bind (fun d =>
          d.created_by.map (List.intercalate (", ".toList)))
        { title := item.title
          creator := jsOrStr createdBy item.creator
          type := .tv
          confidence := confidence
          source := .tmdb
          tmdbId := some bestResult.id
          imdbId := imdbId
          tvdbId := Option.none
          posterUrl := posterUrlOf bestResult.poster_path
          overview := bestResult.overview.map (List.take 500)
          rating := bestResult.vote_average
          releaseDate := bestResult.first_air_date
          genres := resolveGenres g bestResult.genre_ids
          year := releaseYearOf bestResult.first_air_date
          director := Option.none
          runtime := Option.none
          network := network
          seasons := seasons
          showStatus := showStatus
          plexMatch := false
          plexRatingKey := Option.none }

/-- `enrichSingleItem` (metadata.ts): dispatch by item type; `dvd` tries the
movie path first and falls back to the TV path only when the movie result is
unmatched; all other types get no catalog enrichment. -/
def enrichSingleItem (g : GenreMap) (menv : MovieEnv) (tvenv : TVEnv)
    (item : LLMIdentifiedItem) : EnrichedItem :=
  match item.type with
  | .movie => enrichMovie g menv item
  | .tv => enrichTV g tvenv item
  | .dvd =>
    let movieResult := enrichMovie g menv item
    if movieResult.confidence ≠ .unmatched then movieResult
    else
      let tvResult := enrichTV g tvenv item
      if tvResult.confidence ≠ .unmatched then tvResult
      else buildUnmatched item
  | _ => buildUnmatched item

/-- The `Promise.allSettled` + index-aligned map of `enrichItems`
(metadata.ts, lines 820–833): slot `i` of the output is the value of
`enrichSingleItem` on input `i` when that promise fulfilled, and
`buildUnmatched(items[i])` when it rejected.  `throws i` says whether the
resolution of the item at absolute index `i` threw; `i0` is the index of
the first item of the list. -/
def enrichItemsFrom (g : GenreMap) (menv : MovieEnv) (tvenv : TVEnv)
    (throws : Nat → Bool) : List LLMIdentifiedItem → Nat → List EnrichedItem
  | [], _ => []
  | it :: rest, i0 =>
    (if throws i0 then buildUnmatched it else enrichSingleItem g menv tvenv it)
      :: enrichItemsFrom g menv tvenv throws rest (i0 + 1)

/-- The TMDB part of `enrichItems`: all items settled from index 0. -/
def enrichItemsCore (g : GenreMap) (menv : MovieEnv) (tvenv : TVEnv)
    (throws : Nat → Bool) (items : List LLMIdentifiedItem) :
    List EnrichedItem :=
  enrichItemsFrom g menv tvenv throws items 0

/-- The supplemental TVDB loop of `enrichItems` (metadata.ts, lines
857–887): unmatched items are skipped (their promise resolves `null`);
for the others, a fulfilled non-null lookup assigns `tvdbId`, and a null
or rejected lookup leaves the item unchanged.  `lookup e` is the settled
outcome of `resolveTVDBId(e.title, e.year, e.imdbId, e.type)`. -/
def tvdbAssign (lookup : EnrichedItem → Option Int) (l : List EnrichedItem) :
    List EnrichedItem :=
  l.map (fun e =>
    if e.confidence = .unmatched then e
    else
      match lookup e with
      | some id => { e with tvdbId := some id }
      | Option.none => e)

end Spectarr

namespace Spectarr

-- ─── Supplemental catalog: TVDB (tvdb.ts) ─────────────────

/-- `TVDBSearchResult` (tvdb.ts): the three differently-shaped id fields
plus the fields used for scoring. -/
structure TVDBSearchResult where
  tvdb_id : Option Str
  id : Option Str
  objectID : Option Str
  name : Option Str
  type : Option Str
  primary_type : Option Str
  year : Option Str
deriving DecidableEq, Repr

/-- `parseInt(s, 10)` followed by the `!isNaN(parsed) && parsed > 0` check. -/
def parsePositive (s : Str) : Option Int :=
  match jsParseInt s with
  | some p => if 0 < p then some p else Option.none
  | Option.none => Option.none

/-- `s.slice(s.lastIndexOf('-') + 1)`, or `s` itself when there is no dash. -/
def afterLastDash (s : Str) : Str :=
  if s.contains '-' then (s.reverse.takeWhile (fun c => c ≠ '-')).reverse
  else s

/-- `extractTVDBId` (tvdb.ts): try `tvdb_id` (pure numeric), then `id`
(possibly `kind-12345`-prefixed), then `objectID`, in that fixed priority
order; each attempt falls through on a missing/invalid/non-positive value. -/
def extractTVDBId (r : TVDBSearchResult) : Option Int :=
  match (if truthyStr r.tvdb_id then r.tvdb_id.bind parsePositive
         else Option.none) with
  | some p => some p
  | Option.none =>
    match (if truthyStr r.id then
             r.id.bind (fun s => parsePositive (afterLastDash s))
           else Option.none) with
    | some p => some p
    | Option.none =>
      if truthyStr r.objectID then
        r.objectID.bind (fun s => parsePositive (afterLastDash s))
      else Option.none

/-- `scoreTVDBResult` (tvdb.ts): Levenshtein similarity of the normalized
titles, also trying the season-suffix-stripped query, plus the clamped
`+0.1` year bonus. -/
def scoreTVDBResult (queryTitle : Str) (queryYear : Option Int)
    (r : TVDBSearchResult) : ℚ :=
  let q := stripArticle (trimStr (lowerStr queryTitle))
  let rr := stripArticle (trimStr (lowerStr (r.name.getD [])))
  let score := normalizedSimilarity q rr
  let qStripped := stripArticle (trimStr (lowerStr (extractSeriesName queryTitle)))
  let score :=
    if qStripped ≠ q then max score (normalizedSimilarity qStripped rr)
    else score
  match queryYear with
  | some qy =>
    if qy ≠ 0 ∧ truthyStr r.year ∧ r.year.bind jsParseInt = some qy then
      min (score + (1 : ℚ)/10) 1
    else score
  | Option.none => score

/-- `pickBestResult` (tvdb.ts): score every result, keep the maximum, and
reject it when the best score is below the 0.5 similarity threshold. -/
def pickBestResult (title : Str) (year : Option Int)
    (results : List TVDBSearchResult) : Option TVDBSearchResult :=
  if results.isEmpty then Option.none
  else
    let best := selectBest (scoreTVDBResult title year) results
    if best.2 < (1 : ℚ)/2 then Option.none
    else best.1

/-- The post-response logic shared by `searchTVDBSeries` and
`searchTVDBMovie` (tvdb.ts): given the (≤ 5) decoded search results,
return the extracted id of the accepted best match.  Transport failures
and exceptions yield an empty candidate list / `none` upstream. -/
def searchTVDBTitleCore (title : Str) (year : Option Int)
    (results : List TVDBSearchResult) : Option Int :=
  if results.isEmpty then Option.none
  else
    match pickBestResult title year results with
    | Option.none => Option.none
    | some best => extractTVDBId best

inductive TVDBKind where
  | series | movie
deriving DecidableEq, Repr

/-- Oracles for the three TVDB lookups used by `resolveTVDBId`:
`findByImdb` is the settled value of `findTVDBByImdbId`, and
`searchSeries`/`searchMovie` the settled values of the two title
searches (each `none` on no-match or error). -/
structure TVDBEnv where
  findByImdb : Str → Option (Int × TVDBKind)
  searchSeries : Str → Option Int → Option Int
  searchMovie : Str → Option Int → Option Int

/-- `resolveTVDBId` (tvdb.ts): prefer the IMDB-id cross-reference; only
when it is absent or yields nothing fall back to the kind-specific title
search (TV tries the suffix-stripped title, then the original). -/
def resolveTVDBId (env : TVDBEnv) (configured : Bool) (title : Str)
    (year : Option Int) (imdbId : Option Str) (type : ItemType) :
    Option Int :=
  if !configured then Option.none
  else
    match (if truthyStr imdbId then imdbId.bind env.findByImdb
           else Option.none) with
    | some r => some r.1
    | Option.none =>
      let searchTitle := if type = .tv then extractSeriesName title else title
      match type with
      | .tv =>
        let tvdbId := env.searchSeries searchTitle year
        if !(truthyNum tvdbId) ∧ searchTitle ≠ title then
          env.searchSeries title year
        else tvdbId
      | .movie => env.searchMovie title year
      | _ =>
        let movieId := env.searchMovie title year
        if truthyNum movieId then movieId
        else env.searchSeries title year

-- ─── Personal library: Plex (plex.ts) ─────────────────────

structure PlexGuids where
  imdbId : Option Str
  tmdbId : Option Str
  tvdbId : Option Str
deriving DecidableEq, Repr

inductive PlexLibKind where
  | movie | show
deriving DecidableEq, Repr

/-- `PlexItem` (types.ts). -/
structure PlexItem where
  ratingKey : Str
  title : Str
  year : Option Int
  guids : PlexGuids
  type : PlexLibKind
deriving DecidableEq, Repr

/-- Helper for `normalizeTitle`: `/\s+/g → ' '` (collapse whitespace runs);
the flag records whether the previous character was whitespace. -/
def collapseWsAux : Str → Bool → Str
  | [], _ => []
  | c :: rest, prevWs =>
    if jsWhitespace c then
      if prevWs then collapseWsAux rest true
      else ' ' :: collapseWsAux rest true
    else c :: collapseWsAux rest false

/-- `normalizeTitle` (plex.ts): lowercase, delete `[^a-z0-9\s]`, collapse
whitespace runs to single spaces, trim. -/
def normalizeTitle (title : Str) : Str :=
  trimStr (collapseWsAux
    ((lowerStr title).filter
      (fun c => ('a' ≤ c && c ≤ 'z') || c.isDigit || jsWhitespace c))
    false)

/-- `PlexMatchResult` (plex.ts). -/
structure PlexMatchResult where
  matched : Bool
  plexRatingKey : Option Str
  imdbId : Option Str
  tmdbId : Option Str
  tvdbId : Option Str
deriving DecidableEq, Repr

/-- `year && plexItem.year && Math.abs(year - plexItem.year) > 1`. -/
def plexYearReject (year plexYear : Option Int) : Bool :=
  match year, plexYear with
  | some y, some py => y ≠ 0 && py ≠ 0 && (y - py).natAbs > 1
  | _, _ => false

/-- The successful `matchWithPlex` return value for one library item. -/
def plexFound (p : PlexItem) : PlexMatchResult where
  matched := true
  plexRatingKey := some p.ratingKey
  imdbId := p.guids.imdbId
  tmdbId := p.guids.tmdbId
  tvdbId := p.guids.tvdbId

/-- The unsuccessful `matchWithPlex` return value. -/
def plexNoMatch : PlexMatchResult where
  matched := false
  plexRatingKey := Option.none
  imdbId := Option.none
  tmdbId := Option.none
  tvdbId := Option.none

/-- `matchWithPlex` (plex.ts): first-match-wins scan of the library; exact
normalized-title equality, else substring containment in either direction;
either way a present-on-both-sides year difference greater than 1 rejects
the item and the scan continues. -/
def matchWithPlex (title : Str) (year : Option Int) :
    List PlexItem → PlexMatchResult
  | [] => plexNoMatch
  | p :: rest =>
    let nq := normalizeTitle title
    let np := normalizeTitle p.title
    if nq = np then
      if plexYearReject year p.year then matchWithPlex title year rest
      else plexFound p
    else if strIncludes nq np || strIncludes np nq then
      if plexYearReject year p.year then matchWithPlex title year rest
      else plexFound p
    else matchWithPlex title year rest

/-- `parseInt(plexMatch.tvdbId, 10) || null`. -/
def plexTvdbIdInt (s : Option Str) : Option Int :=
  match s.bind jsParseInt with
  | some n => if n = 0 then Option.none else some n
  | Option.none => Option.none

/-- The per-item Plex merge of `enrichAndSaveItems`
(scan-orchestrator.ts, lines 354–364; the single-item edit route repeats
the same logic): on a library match, set the Plex flags and fill `imdbId`
and `tvdbId` only when they are currently empty. -/
def plexMergeItem (plexItems : List PlexItem) (e : EnrichedItem) :
    EnrichedItem :=
  let m := matchWithPlex e.title e.year plexItems
  if m.matched then
    { e with
      plexMatch := true
      plexRatingKey := m.plexRatingKey
      imdbId :=
        if !(truthyStr e.imdbId) && truthyStr m.imdbId then m.imdbId
        else e.imdbId
      tvdbId :=
        if !(truthyNum e.tvdbId) && truthyStr m.tvdbId then
          plexTvdbIdInt m.tvdbId
        else e.tvdbId }
  else e

/-- The Plex cross-reference pass over all enriched items of a scan. -/
def plexStep (plexItems : List PlexItem) (l : List EnrichedItem) :
    List EnrichedItem :=
  l.map (plexMergeItem plexItems)

end Spectarr

namespace Spectarr

-- ─── TMDB search request building (metadata.ts) ──────────

/-- The `if (year && year > 0) params.set(...)` guard shared by
`searchTMDBMovies` (`year`) and `searchTMDBTV` (`first_air_date_year`). -/
def tmdbYearFilter (year : Option Int) : Option Int :=
  match year with
  | some y => if y ≠ 0 ∧ 0 < y then some y else Option.none
  | Option.none => Option.none

/-- The query parameters of a TMDB search request (the fixed
`language`/`page` fields are omitted). -/
structure TMDBSearchParams where
  query : Str
  year : Option Int
deriving DecidableEq, Repr

/-- The request built by `searchTMDBMovies` (metadata.ts). -/
def searchTMDBMoviesParams (title : Str) (year : Option Int) :
    TMDBSearchParams where
  query := title
  year := tmdbYearFilter year

/-- The request built by `searchTMDBTV` (metadata.ts). -/
def searchTMDBTVParams (title : Str) (year : Option Int) :
    TMDBSearchParams where
  query := title
  year := tmdbYearFilter year

-- ─── Vision-response parsing (scan-orchestrator.ts) ───────

/-- JSON values (the model of what `JSON.parse` returns). -/
inductive JsonVal where
  | null
  | bool (b : Bool)
  | num (q : ℚ)
  | str (s : Str)
  | arr (elems : List JsonVal)
  | obj (members : List (Str × JsonVal))

/-- JSON (RFC 8259) whitespace: space, tab, LF, CR. -/
def jsonWs (c : Char) : Bool :=
  c = ' ' || c = '\t' || c = '\n' || c = '\r'

/-- Value of one hexadecimal digit (code-point arithmetic). -/
def hexVal (c : Char) : Option Nat :=
  let n := c.toNat
  if 48 ≤ n ∧ n ≤ 57 then some (n - 48)
  else if 97 ≤ n ∧ n ≤ 102 then some (n - 87)
  else if 65 ≤ n ∧ n ≤ 70 then some (n - 55)
  else Option.none

/-- Single-character JSON string escapes. -/
def escChar (c : Char) : Option Char :=
  if c = '"' then some '"'
  else if c = '\\' then some '\\'
  else if c = '/' then some '/'
  else if c = 'b' then some (Char.ofNat 8)
  else if c = 'f' then some (Char.ofNat 12)
  else if c = 'n' then some '\n'
  else if c = 'r' then some '\r'
  else if c = 't' then some '\t'
  else Option.none

/-- Body of a JSON string after the opening quote: returns the decoded
content and the remainder after the closing quote. -/
def parseStringBody : Str → Option (Str × Str)
  | [] => Option.none
  | '"' :: rest => some ([], rest)
  | '\\' :: rest =>
    (match rest with
     | 'u' :: h1 :: h2 :: h3 :: h4 :: rest' =>
       match hexVal h1, hexVal h2, hexVal h3, hexVal h4 with
       | some a, some b, some c, some d =>
         (parseStringBody rest').map
           (fun p => (Char.ofNat (((a * 16 + b) * 16 + c) * 16 + d) :: p.1, p.2))
       | _, _, _, _ => Option.none
     | e :: rest' =>
       match escChar e with
       | some c => (parseStringBody rest').map (fun p => (c :: p.1, p.2))
       | Option.none => Option.none
     | [] => Option.none)
  | c :: rest =>
    if c.toNat < 32 then Option.none
    else (parseStringBody rest).map (fun p => (c :: p.1, p.2))

/-- Digit run as a natural number. -/
def digitsVal (ds : Str) : Nat :=
  ds.foldl (fun n c => 10 * n + (Char.toNat c - 48)) 0

/-- Powers of ten with integer exponent, as rationals. -/
def ratPow10 (e : Int) : ℚ :=
  if 0 ≤ e then (10 : ℚ) ^ e.toNat else 1 / (10 : ℚ) ^ (-e).toNat

/-- Exponent part of a JSON number, after the `e`/`E`. -/
def parseExpPart (s : Str) : Option (Int × Str) :=
  let p : Int × Str :=
    match s with
    | '+' :: r => (1, r)
    | '-' :: r => (-1, r)
    | _ => (1, s)
  let eds := p.2.takeWhile Char.isDigit
  if eds.isEmpty then Option.none
  else some (p.1 * (digitsVal eds : Int), p.2.drop eds.length)

/-- A JSON number (RFC 8259 grammar), as an exact rational. -/
def parseNumber (s : Str) : Option (ℚ × Str) :=
  let p : Bool × Str :=
    match s with
    | c :: r => if c = '-' then (true, r) else (false, c :: r)
    | [] => (false, [])
  let ds := p.2.takeWhile Char.isDigit
  if ds.isEmpty then Option.none
  else if 1 < ds.length ∧ ds.headD '0' = '0' then Option.none
  else
    let r1 := p.2.drop ds.length
    let fracRes : Option (Str × Str) :=
      match r1 with
      | '.' :: r =>
        let fds := r.takeWhile Char.isDigit
        if fds.isEmpty then Option.none else some (fds, r.drop fds.length)
      | _ => some ([], r1)
    match fracRes with
    | Option.none => Option.none
    | some (fds, r2) =>
      let expRes : Option (Int × Str) :=
        match r2 with
        | 'e' :: r => parseExpPart r
        | 'E' :: r => parseExpPart r
        | _ => some (0, r2)
      match expRes with
      | Option.none => Option.none
      | some (ex, r3) =>
        let mant : ℚ := (digitsVal (ds ++ fds) : ℚ) / (10 : ℚ) ^ fds.length
        let value := mant * ratPow10 ex
        some ((if p.1 then -value else value), r3)

mutual

/-- One JSON value (no leading whitespace); fuel-bounded recursion. -/
def parseValue : Nat → Str → Option (JsonVal × Str)
  | 0, _ => Option.none
  | fuel + 1, s =>
    if ("null".toList).isPrefixOf s then some (.null, s.drop 4)
    else if ("true".toList).isPrefixOf s then some (.bool true, s.drop 4)
    else if ("false".toList).isPrefixOf s then some (.bool false, s.drop 5)
    else
      match s with
      | [] => Option.none
      | c :: rest =>
        if c = '"' then (parseStringBody rest).map (fun p => (.str p.1, p.2))
        else if c = '[' then
          let rest1 := rest.dropWhile jsonWs
          (match rest1 with
           | ']' :: r => some (.arr [], r)
           | _ => (parseElems fuel rest1).map (fun p => (.arr p.1, p.2)))
        else if c = '{' then
          let rest1 := rest.dropWhile jsonWs
          (match rest1 with
           | '}' :: r => some (.obj [], r)
           | _ => (parseMembers fuel rest1).map (fun p => (.obj p.1, p.2)))
        else (parseNumber (c :: rest)).map (fun p => (.num p.1, p.2))

/-- Non-empty array elements, up to and including the closing `]`. -/
def parseElems : Nat → Str → Option (List JsonVal × Str)
  | 0, _ => Option.none
  | fuel + 1, s =>
    match parseValue fuel s with
    | Option.none => Option.none
    | some (v, r) =>
      match r.dropWhile jsonWs with
      | ',' :: r2 =>
        (parseElems fuel (r2.dropWhile jsonWs)).map (fun p => (v :: p.1, p.2))
      | ']' :: r2 => some ([v], r2)
      | _ => Option.none

/-- Non-empty object members, up to and including the closing brace. -/
def parseMembers : Nat → Str → Option (List (Str × JsonVal) × Str)
  | 0, _ => Option.none
  | fuel + 1, s =>
    match s with
    | '"' :: rest =>
      (match parseStringBody rest with
       | Option.none => Option.none
       | some (key, r) =>
         match r.dropWhile jsonWs with
         | ':' :: r2 =>
           (match parseValue fuel (r2.dropWhile jsonWs) with
            | Option.none => Option.none
            | some (v, r3) =>
              match r3.dropWhile jsonWs with
              | ',' :: r5 =>
                (parseMembers fuel (r5.dropWhile jsonWs)).map
                  (fun p => ((key, v) :: p.1, p.2))
              | '}' :: r5 => some ([(key, v)], r5)
              | _ => Option.none)
         | _ => Option.none)
    | _ => Option.none

end

/-- The model of `JSON.parse`: optional surrounding whitespace around a
single JSON value.  (Float rounding of JS numbers is not modelled; numbers
are exact rationals.) -/
def jsonParse (s : Str) : Option JsonVal :=
  match parseValue (2 * s.length + 2) (s.dropWhile jsonWs) with
  | some (v, rest) => if (rest.dropWhile jsonWs).isEmpty then some v
                      else Option.none
  | Option.none => Option.none

/-- The backtick character. -/
def backtick : Char := Char.ofNat 96

/-- The three-backtick fence delimiter. -/
def fenceDelim : Str := [backtick, backtick, backtick]

/-- Split `s` at the leftmost occurrence of `delim`: the part before it and
the part after it. -/
def splitAtSub (delim : Str) : Str → Option (Str × Str)
  | [] => if delim.isEmpty then some ([], []) else Option.none
  | c :: rest =>
    if delim.isPrefixOf (c :: rest) then some ([], (c :: rest).drop delim.length)
    else (splitAtSub delim rest).map (fun p => (c :: p.1, p.2))

/-- Group 1 of the first match of the fence regex of `tryParseJson`
(scan-orchestrator.ts): everything between the opening fence (with its
optional `json` tag and the greedy `\s*`) and the next fence. -/
def extractFenced (content : Str) : Option Str :=
  (splitAtSub fenceDelim content).bind (fun q =>
    ((splitAtSub fenceDelim
      ((if ("json".toList).isPrefixOf q.2 then q.2.drop 4 else q.2).dropWhile
        jsWhitespace)).map (fun p => p.1)))

/-- `tryParseJson` (scan-orchestrator.ts): direct `JSON.parse`; on failure
extract the first fenced code block and parse its trimmed contents; on
failure return `null`. -/
def tryParseJson (content : Str) : Option JsonVal :=
  match jsonParse content with
  | some v => some v
  | Option.none =>
    match extractFenced content with
    | some inner => jsonParse (trimStr inner)
    | Option.none => Option.none

end Spectarr

namespace Spectarr

-- Batteries marks the `Rat` arithmetic `@[irreducible]`, which blocks
-- `decide`-style evaluation of concrete scores; re-allow unfolding.
set_option allowUnsafeReducibility true in
attribute [semireducible] Rat.mul Rat.add Rat.sub Rat.inv Rat.ofScientific

-- ─── Helper lemmas: best-candidate selection ──────────────

theorem foldl_bestStep_spec {α : Type} (f : α → ℚ) :
    ∀ (l : List α) (acc : Option α × ℚ),
      (l.foldl (bestStep f) acc = acc ∨
        ∃ r ∈ l, l.foldl (bestStep f) acc = (some r, f r)) ∧
      acc.2 ≤ (l.foldl (bestStep f) acc).2 ∧
      ∀ r ∈ l, f r ≤ (l.foldl (bestStep f) acc).2 := by
  intro l
  induction l with
  | nil => intro acc; simp
  | cons a t ih =>
    intro acc
    rcases ih (bestStep f acc a) with ⟨h1, h2, h3⟩
    refine ⟨?_, ?_, ?_⟩
    · rcases h1 with h1 | ⟨r, hr, hres⟩
      · by_cases hlt : acc.2 < f a
        · right
          exact ⟨a, by simp, by
            rw [List.foldl_cons, h1]; simp [bestStep, hlt]⟩
        · left
          rw [List.foldl_cons, h1]; simp [bestStep, hlt]
      · right
        exact ⟨r, by simp [hr], by rw [List.foldl_cons]; exact hres⟩
    · have hstep : acc.2 ≤ (bestStep f acc a).2 := by
        by_cases hlt : acc.2 < f a
        · simp only [bestStep, if_pos hlt]
          exact le_of_lt hlt
        · simp only [bestStep, if_neg hlt]
          exact le_refl _
      calc acc.2 ≤ (bestStep f acc a).2 := hstep
        _ ≤ _ := by rw [List.foldl_cons]; exact h2
    · intro r hr
      rcases List.mem_cons.mp hr with rfl | hrt
      · have hstep : f r ≤ (bestStep f acc r).2 := by
          by_cases hlt : acc.2 < f r
          · simp only [bestStep, if_pos hlt]
            exact le_refl _
          · simp only [bestStep, if_neg hlt]
            exact le_of_not_lt hlt
        calc f r ≤ (bestStep f acc r).2 := hstep
          _ ≤ _ := by rw [List.foldl_cons]; exact h2
      · exact h3 r hrt

theorem selectBest_eq_none {α : Type} (f : α → ℚ) (l : List α)
    (h : (selectBest f l).1 = Option.none) : (selectBest f l).2 = 0 := by
  rcases (foldl_bestStep_spec f l (Option.none, 0)).1 with h1 | ⟨r, _, hres⟩
  · unfold selectBest; rw [h1]
  · exfalso
    unfold selectBest at h
    rw [hres] at h
    simp at h

theorem selectBest_eq_some {α : Type} (f : α → ℚ) (l : List α) (r : α)
    (h : (selectBest f l).1 = some r) :
    r ∈ l ∧ (selectBest f l).2 = f r := by
  rcases (foldl_bestStep_spec f l (Option.none, 0)).1 with h1 | ⟨r', hr', hres⟩
  · exfalso
    unfold selectBest at h
    rw [h1] at h
    simp at h
  · unfold selectBest at h ⊢
    rw [hres] at h ⊢
    simp at h
    subst h
    exact ⟨hr', rfl⟩

theorem selectBest_le {α : Type} (f : α → ℚ) (l : List α) :
    ∀ r ∈ l, f r ≤ (selectBest f l).2 :=
  (foldl_bestStep_spec f l (Option.none, 0)).2.2

-- ─── Helper lemmas: confidence tiers ──────────────────────

theorem scoreToConfidence_eq_unmatched {s : ℚ} :
    scoreToConfidence s = .unmatched ↔ s < 1/2 := by
  unfold scoreToConfidence
  split_ifs with h1 h2
  · simp only [reduceCtorEq, false_iff, not_lt]
    linarith
  · simp only [reduceCtorEq, false_iff, not_lt]
    linarith
  · simp only [true_iff]
    linarith

theorem scoreToConfidence_eq_high {s : ℚ} :
    scoreToConfidence s = .high ↔ (85 : ℚ)/100 ≤ s := by
  unfold scoreToConfidence
  split_ifs with h1 h2 <;> simp_all

theorem scoreToConfidence_eq_low {s : ℚ} :
    scoreToConfidence s = .low ↔ (1 : ℚ)/2 ≤ s ∧ s < (85 : ℚ)/100 := by
  unfold scoreToConfidence
  split_ifs with h1 h2
  · constructor
    · intro h; exact absurd h (by simp)
    · rintro ⟨_, hlt⟩; linarith
  · constructor
    · intro _; exact ⟨h2, lt_of_not_ge h1⟩
    · intro _; rfl
  · constructor
    · intro h; exact absurd h (by simp)
    · rintro ⟨hge, _⟩; exact absurd hge h2

-- ─── C4: the total-score formula ──────────────────────────

/-- The claim-side scoring formula of spec §4.2, stated from the spec's
words (to be compared against the code's candidate scores):
`min(1, max(s_raw, s_stripped) + b)`, where `b = 0.10` exactly when both
years are present and equal (a query year of 0 encodes "unknown", spec §6). -/
def specTitleScore (query candidate : Str)
    (queryYear candidateYear : Option Int) : ℚ :=
  let sRaw := normalizedSimilarity (stripArticle (lowerStr query))
    (stripArticle (lowerStr candidate))
  let sStripped := normalizedSimilarity
    (stripArticle (lowerStr (stripSeasonSuffix query)))
    (stripArticle (lowerStr candidate))
  let b : ℚ :=
    if queryYear ≠ Option.none ∧ queryYear ≠ some 0 ∧ candidateYear = queryYear
    then 1/10 else 0
  min 1 (max sRaw sStripped + b)

theorem yearBonus_eq_spec (qy cy : Option Int) :
    yearBonus qy cy =
      if qy ≠ Option.none ∧ qy ≠ some 0 ∧ cy = qy then (1 : ℚ)/10 else 0 := by
  rcases qy with _ | y
  · simp [yearBonus]
  · by_cases hy : y = 0
    · subst hy; simp [yearBonus]
    · by_cases hcy : cy = some y
      · simp [yearBonus, hy, hcy]
      · simp [yearBonus, hy, hcy]

/-- **C4**: for every query item and candidate (movie and TV), the total
candidate score equals `min(1, max(s_raw, s_stripped) + b)` where the two
similarities are taken on the lowercased article-stripped strings (with the
season suffix additionally stripped from the query only) and `b = 0.10`
exactly when both years are present and equal. -/
theorem candidate_total_score_formula (item : LLMIdentifiedItem)
    (rm : TMDBMovieResult) (rt : TMDBTVResult) :
    movieCandidateScore item rm =
      specTitleScore item.title rm.title item.year (parsedYear rm.release_date) ∧
    tvCandidateScore item rt =
      specTitleScore item.title rt.name item.year (parsedYear rt.first_air_date) := by
  constructor
  · unfold movieCandidateScore specTitleScore computeTitleScore
    rw [yearBonus_eq_spec, min_comm]
  · unfold tvCandidateScore specTitleScore computeTitleScore
    rw [yearBonus_eq_spec, min_comm]

-- ─── C10: year 0 behaves as an absent year ────────────────

theorem plexYearReject_left_zero (py : Option Int) :
    plexYearReject (some 0) py = false := by
  cases py <;> simp [plexYearReject]

theorem plexYearReject_left_none (py : Option Int) :
    plexYearReject Option.none py = false := by
  cases py <;> simp [plexYearReject]

/-- **C10**: a year of 0 (the vision prompt's encoding of an unknown year)
behaves exactly like an absent year: no year filter is put on the TMDB
search requests, the +0.10 year bonus is never awarded (TMDB and TVDB
scoring alike), and the Plex year-mismatch rejection never applies. -/
theorem year_zero_behaves_as_absent :
    (∀ t : Str, searchTMDBMoviesParams t (some 0) = searchTMDBMoviesParams t Option.none ∧
      searchTMDBTVParams t (some 0) = searchTMDBTVParams t Option.none) ∧
    (∀ ry : Option Int, yearBonus (some 0) ry = 0 ∧ yearBonus Option.none ry = 0) ∧
    (∀ (t : Str) (r : TVDBSearchResult),
      scoreTVDBResult t (some 0) r = scoreTVDBResult t Option.none r) ∧
    (∀ (t : Str) (items : List PlexItem),
      matchWithPlex t (some 0) items = matchWithPlex t Option.none items) := by
  refine ⟨?_, ?_, ?_, ?_⟩
  · intro t
    constructor <;> simp [searchTMDBMoviesParams, searchTMDBTVParams, tmdbYearFilter]
  · intro ry
    constructor <;> simp [yearBonus]
  · intro t r
    simp [scoreTVDBResult]
  · intro t items
    induction items with
    | nil => rfl
    | cons p rest ih =>
      simp only [matchWithPlex, plexYearReject_left_zero,
        plexYearReject_left_none, Bool.false_eq_true, if_false, ih]

-- ─── C6: direct-id lookup precedence in the supplemental catalog ──

/-- **C6**: when an IMDB cross-reference id is available and the direct-id
lookup returns a result, `resolveTVDBId` returns exactly that result's id —
for every possible pair of title-search oracles, so no title search can
influence (let alone overwrite) the outcome; the `Option` return makes "at
most one id" structural. -/
theorem supplemental_direct_lookup (f : Str → Option (Int × TVDBKind))
    (ss sm : Str → Option Int → Option Int) (title : Str) (year : Option Int)
    (s : Str) (ty : ItemType) (tid : Int) (k : TVDBKind)
    (hs : s.isEmpty = false) (hf : f s = some (tid, k)) :
    resolveTVDBId ⟨f, ss, sm⟩ true title year (some s) ty = some tid := by
  unfold resolveTVDBId
  simp [truthyStr, hs, hf]

/-- Direct-lookup oracle for the C6 witness. -/
def c6find : Str → Option (Int × TVDBKind) :=
  fun s => if s = "tt1".toList then some (7, .series) else Option.none

theorem supplemental_direct_lookup_witness :
    resolveTVDBId ⟨c6find, fun _ _ => some 999, fun _ _ => some 999⟩ true
      ("x".toList) Option.none (some ("tt1".toList)) .tv = some 7 :=
  supplemental_direct_lookup c6find (fun _ _ => some 999) (fun _ _ => some 999)
    ("x".toList) Option.none ("tt1".toList) .tv 7 .series (by decide) (by decide)

end Spectarr

namespace Spectarr

-- ─── C7: dispatch by kind ─────────────────────────────────

/-- **C7**: a `dvd` ("disc") item tries the movie match first; only when
that is unmatched is the TV match consulted (a matched movie result is
independent of the TV oracle); both unmatched gives the unmatched record;
and `vinyl`/`game`/`other` items are unmatched with no catalog access at
all (the result is independent of both catalog oracles). -/
theorem kind_dispatch (g : GenreMap) (menv : MovieEnv) (tvenv : TVEnv)
    (item : LLMIdentifiedItem) :
    (item.type = .dvd →
      ((enrichMovie g menv item).confidence ≠ .unmatched →
        ∀ tvenv' : TVEnv,
          enrichSingleItem g menv tvenv' item = enrichMovie g menv item) ∧
      ((enrichMovie g menv item).confidence = .unmatched →
        (enrichTV g tvenv item).confidence ≠ .unmatched →
        enrichSingleItem g menv tvenv item = enrichTV g tvenv item) ∧
      ((enrichMovie g menv item).confidence = .unmatched →
        (enrichTV g tvenv item).confidence = .unmatched →
        enrichSingleItem g menv tvenv item = buildUnmatched item)) ∧
    ((item.type = .vinyl ∨ item.type = .game ∨ item.type = .other) →
      ∀ (menv' : MovieEnv) (tvenv' : TVEnv),
        enrichSingleItem g menv' tvenv' item = buildUnmatched item) := by
  constructor
  · intro hdvd
    refine ⟨?_, ?_, ?_⟩
    · intro hm tvenv'
      simp [enrichSingleItem, hdvd, hm]
    · intro hm ht
      simp [enrichSingleItem, hdvd, hm, ht]
    · intro hm ht
      simp [enrichSingleItem, hdvd, hm, ht]
  · rintro (h | h | h) menv' tvenv' <;> simp [enrichSingleItem, h]

/-- Scenario-D item for the C7 witness: a disc that fails the movie match
and succeeds the TV match. -/
def c7item : LLMIdentifiedItem := ⟨"dn".toList, [], .dvd, Option.none⟩

def c7genres : GenreMap := fun _ => Option.none

def c7menv : MovieEnv :=
  ⟨fun _ _ => [⟨1, "zzzz".toList, Option.none, Option.none, Option.none, [],
    Option.none⟩], fun _ => Option.none⟩

def c7tvenv : TVEnv :=
  ⟨fun _ _ => [⟨2, "dn".toList, Option.none, Option.none, Option.none, [],
    Option.none⟩], fun _ => Option.none⟩

theorem kind_dispatch_witness :
    enrichSingleItem c7genres c7menv c7tvenv c7item =
      enrichTV c7genres c7tvenv c7item ∧
    (enrichTV c7genres c7tvenv c7item).confidence = .high := by
  refine ⟨((kind_dispatch c7genres c7menv c7tvenv c7item).1 rfl).2.1
    (by decide) (by decide), by decide⟩

-- ─── C8: the shared 0.50 threshold in the supplemental search ──

theorem pickBest_spec (title : Str) (year : Option Int)
    (results : List TVDBSearchResult) (r : TVDBSearchResult)
    (hr : pickBestResult title year results = some r) :
    r ∈ results ∧ (1 : ℚ)/2 ≤ scoreTVDBResult title year r ∧
    ∀ x ∈ results, scoreTVDBResult title year x ≤ scoreTVDBResult title year r := by
  unfold pickBestResult at hr
  by_cases hres : results.isEmpty
  · rw [if_pos hres] at hr
    exact absurd hr (by simp)
  · rw [if_neg hres] at hr
    by_cases hlt : (selectBest (scoreTVDBResult title year) results).2 < (1 : ℚ)/2
    · simp only [if_pos hlt] at hr
      exact absurd hr (by simp)
    · simp only [if_neg hlt] at hr
      obtain ⟨hmem, hsnd⟩ :=
        selectBest_eq_some (scoreTVDBResult title year) results r hr
      rw [hsnd] at hlt
      refine ⟨hmem, le_of_not_lt hlt, ?_⟩
      intro x hx
      have hle := selectBest_le (scoreTVDBResult title year) results x hx
      rw [hsnd] at hle
      exact hle

/-- **C8**: the supplemental (TVDB) title search accepts a candidate only
when the best-scoring candidate's title score (raw/stripped-variant
similarity with the clamped year bonus) is at least 0.50; any returned id
comes from such a candidate. -/
theorem supplemental_title_search_threshold (title : Str) (year : Option Int)
    (results : List TVDBSearchResult) :
    (∀ r, pickBestResult title year results = some r →
      r ∈ results ∧ (1 : ℚ)/2 ≤ scoreTVDBResult title year r ∧
      ∀ x ∈ results, scoreTVDBResult title year x ≤ scoreTVDBResult title year r) ∧
    (∀ id, searchTVDBTitleCore title year results = some id →
      ∃ r, r ∈ results ∧ extractTVDBId r = some id ∧
        (1 : ℚ)/2 ≤ scoreTVDBResult title year r) := by
  constructor
  · intro r hr
    exact pickBest_spec title year results r hr
  · intro id hid
    unfold searchTVDBTitleCore at hid
    split at hid
    · exact absurd hid (by simp)
    · split at hid
      · exact absurd hid (by simp)
      · next best hbest =>
        obtain ⟨hmem, hge, _⟩ := pickBest_spec title year results best hbest
        exact ⟨best, hmem, hid, hge⟩

/-- Candidate for the C8 witness. -/
def c8res : TVDBSearchResult :=
  ⟨some ("9".toList), Option.none, Option.none, some ("t".toList),
   Option.none, Option.none, Option.none⟩

theorem supplemental_title_search_threshold_witness :
    (1 : ℚ)/2 ≤ scoreTVDBResult ("t".toList) Option.none c8res ∧
    extractTVDBId c8res = some 9 := by
  obtain ⟨r, hmem, hext, hge⟩ :=
    (supplemental_title_search_threshold ("t".toList) Option.none [c8res]).2
      9 (by decide)
  have hr : r = c8res := by simpa using hmem
  subst hr
  exact ⟨hge, hext⟩

end Spectarr

namespace Spectarr

-- ─── Helper lemmas: unmatched results collapse to `buildUnmatched` ──

theorem enrichMovie_unmatched_eq (g : GenreMap) (env : MovieEnv)
    (item : LLMIdentifiedItem)
    (h : (enrichMovie g env item).confidence = .unmatched) :
    enrichMovie g env item = buildUnmatched item := by
  by_cases hres : (env.search item.title item.year).isEmpty
  · simp [enrichMovie, hres]
  · rcases h1 : (selectBest (movieCandidateScore item)
      (env.search item.title item.year)).1 with _ | best
    · simp [enrichMovie, hres, h1]
    · by_cases hc : scoreToConfidence (selectBest (movieCandidateScore item)
        (env.search item.title item.year)).2 = .unmatched
      · simp [enrichMovie, hres, h1, hc]
      · exact absurd h (by simp [enrichMovie, hres, h1, hc])

theorem enrichTV_unmatched_eq (g : GenreMap) (env : TVEnv)
    (item : LLMIdentifiedItem)
    (h : (enrichTV g env item).confidence = .unmatched) :
    enrichTV g env item = buildUnmatched item := by
  by_cases hres : (tvSearchResults env item).isEmpty
  · simp [enrichTV, hres]
  · rcases h1 : (selectBest (tvCandidateScore item)
      (tvSearchResults env item)).1 with _ | best
    · simp [enrichTV, hres, h1]
    · by_cases hc : scoreToConfidence (selectBest (tvCandidateScore item)
        (tvSearchResults env item)).2 = .unmatched
      · simp [enrichTV, hres, h1, hc]
      · exact absurd h (by simp [enrichTV, hres, h1, hc])

theorem scoreToConfidence_zero : scoreToConfidence 0 = .unmatched := by
  unfold scoreToConfidence
  rw [if_neg (by norm_num), if_neg (by norm_num)]

theorem enrichMovie_confidence_eq (g : GenreMap) (env : MovieEnv)
    (item : LLMIdentifiedItem)
    (hres : (env.search item.title item.year).isEmpty = false) :
    (enrichMovie g env item).confidence =
      scoreToConfidence (selectBest (movieCandidateScore item)
        (env.search item.title item.year)).2 := by
  rcases h1 : (selectBest (movieCandidateScore item)
    (env.search item.title item.year)).1 with _ | best
  · rw [selectBest_eq_none _ _ h1, scoreToConfidence_zero]
    simp [enrichMovie, hres, h1, buildUnmatched]
  · by_cases hc : scoreToConfidence (selectBest (movieCandidateScore item)
      (env.search item.title item.year)).2 = .unmatched
    · rw [hc]
      simp [enrichMovie, hres, h1, hc, buildUnmatched]
    · simp [enrichMovie, hres, h1, hc]

theorem enrichTV_confidence_eq (g : GenreMap) (env : TVEnv)
    (item : LLMIdentifiedItem)
    (hres : (tvSearchResults env item).isEmpty = false) :
    (enrichTV g env item).confidence =
      scoreToConfidence (selectBest (tvCandidateScore item)
        (tvSearchResults env item)).2 := by
  rcases h1 : (selectBest (tvCandidateScore item)
    (tvSearchResults env item)).1 with _ | best
  · rw [selectBest_eq_none _ _ h1, scoreToConfidence_zero]
    simp [enrichTV, hres, h1, buildUnmatched]
  · by_cases hc : scoreToConfidence (selectBest (tvCandidateScore item)
      (tvSearchResults env item)).2 = .unmatched
    · rw [hc]
      simp [enrichTV, hres, h1, hc, buildUnmatched]
    · simp [enrichTV, hres, h1, hc]

-- ─── C1: acceptance threshold and confidence tiers ────────

/-- **C1**: on both primary-catalog paths, with a non-empty candidate list,
the best candidate is rejected (the result is the unmatched record) when
the best total score is below 0.50; an accepted match scores `low` on
[0.50, 0.85) and `high` on [0.85, ∞). -/
theorem primary_match_threshold_and_tiering (g : GenreMap) (menv : MovieEnv)
    (tvenv : TVEnv) (item : LLMIdentifiedItem)
    (hm : (menv.search item.title item.year).isEmpty = false)
    (ht : (tvSearchResults tvenv item).isEmpty = false) :
    ((selectBest (movieCandidateScore item)
        (menv.search item.title item.year)).2 < (1 : ℚ)/2 →
      enrichMovie g menv item = buildUnmatched item) ∧
    ((1 : ℚ)/2 ≤ (selectBest (movieCandidateScore item)
        (menv.search item.title item.year)).2 →
      (selectBest (movieCandidateScore item)
        (menv.search item.title item.year)).2 < (85 : ℚ)/100 →
      (enrichMovie g menv item).confidence = .low) ∧
    ((85 : ℚ)/100 ≤ (selectBest (movieCandidateScore item)
        (menv.search item.title item.year)).2 →
      (enrichMovie g menv item).confidence = .high) ∧
    ((selectBest (tvCandidateScore item) (tvSearchResults tvenv item)).2 < (1 : ℚ)/2 →
      enrichTV g tvenv item = buildUnmatched item) ∧
    ((1 : ℚ)/2 ≤ (selectBest (tvCandidateScore item) (tvSearchResults tvenv item)).2 →
      (selectBest (tvCandidateScore item) (tvSearchResults tvenv item)).2 < (85 : ℚ)/100 →
      (enrichTV g tvenv item).confidence = .low) ∧
    ((85 : ℚ)/100 ≤ (selectBest (tvCandidateScore item) (tvSearchResults tvenv item)).2 →
      (enrichTV g tvenv item).confidence = .high) := by
  have hMc := enrichMovie_confidence_eq g menv item hm
  have hTc := enrichTV_confidence_eq g tvenv item ht
  refine ⟨?_, ?_, ?_, ?_, ?_, ?_⟩
  · intro hs
    exact enrichMovie_unmatched_eq g menv item
      (by rw [hMc]; exact scoreToConfidence_eq_unmatched.mpr hs)
  · intro h1 h2
    rw [hMc]
    exact scoreToConfidence_eq_low.mpr ⟨h1, h2⟩
  · intro h1
    rw [hMc]
    exact scoreToConfidence_eq_high.mpr h1
  · intro hs
    exact enrichTV_unmatched_eq g tvenv item
      (by rw [hTc]; exact scoreToConfidence_eq_unmatched.mpr hs)
  · intro h1 h2
    rw [hTc]
    exact scoreToConfidence_eq_low.mpr ⟨h1, h2⟩
  · intro h1
    rw [hTc]
    exact scoreToConfidence_eq_high.mpr h1

def c1item : LLMIdentifiedItem := ⟨"d".toList, [], .movie, Option.none⟩

def c1menv : MovieEnv :=
  ⟨fun _ _ => [⟨5, "d".toList, Option.none, Option.none, Option.none, [],
    Option.none⟩], fun _ => Option.none⟩

def c1tvenv : TVEnv :=
  ⟨fun _ _ => [⟨6, "xyzw".toList, Option.none, Option.none, Option.none, [],
    Option.none⟩], fun _ => Option.none⟩

theorem primary_match_threshold_and_tiering_witness :
    (enrichMovie (fun _ => Option.none) c1menv c1item).confidence = .high ∧
    enrichTV (fun _ => Option.none) c1tvenv c1item = buildUnmatched c1item := by
  have h := primary_match_threshold_and_tiering (fun _ => Option.none)
    c1menv c1tvenv c1item (by decide) (by decide)
  exact ⟨h.2.2.1 (by decide), h.2.2.2.1 (by decide)⟩

end Spectarr

namespace Spectarr

-- ─── C5: suffix stripping — one suffix removed per application ──

/-- A title carrying two stacked season suffixes. -/
def stackedTitle : Str := "a-s1-s2".toList

/-- **C5 counterexample**: `stripSeasonSuffix` is not idempotent: the
end-anchored replaces strip only the outermost suffix: one application of
the stripper on `"a-s1-s2"` yields `"a-s1"`, a second application yields
`"a"`. -/
theorem stripSeasonSuffix_not_idempotent :
    stripSeasonSuffix (stripSeasonSuffix stackedTitle) ≠
      stripSeasonSuffix stackedTitle := by decide

theorem findSuffixStart_bound (r : RE) : ∀ (s : Str) (i : Nat),
    findSuffixStart r s = some i →
    i ≤ s.length ∧ (r.nullable = false → i < s.length) := by
  intro s
  induction s with
  | nil =>
    intro i h
    unfold findSuffixStart at h
    by_cases hn : r.nullable
    · rw [if_pos hn] at h
      cases h
      exact ⟨Nat.le_refl 0, fun hf => by rw [hf] at hn; cases hn⟩
    · rw [if_neg hn] at h
      cases h
  | cons c cs ih =>
    intro i h
    unfold findSuffixStart at h
    by_cases hacc : r.accepts (c :: cs)
    · rw [if_pos hacc] at h
      cases h
      exact ⟨Nat.zero_le _, fun _ => Nat.succ_pos _⟩
    · rw [if_neg hacc] at h
      rcases hprev : findSuffixStart r cs with _ | j
      · rw [hprev] at h
        cases h
      · rw [hprev] at h
        simp only [Option.map_some'] at h
        obtain rfl : j + 1 = i := Option.some.inj h
        obtain ⟨hle, hlt⟩ := ih j hprev
        refine ⟨?_, fun hf => ?_⟩
        · simpa [List.length_cons] using Nat.succ_le_succ hle
        · simpa [List.length_cons] using Nat.succ_lt_succ (hlt hf)

theorem replaceSuffix_shrink (r : RE) (hn : r.nullable = false) (s : Str) :
    replaceSuffix r s = s ∨ (replaceSuffix r s).length < s.length := by
  unfold replaceSuffix
  rcases hfind : findSuffixStart r s with _ | i
  · left; rfl
  · right
    obtain ⟨_, hlt⟩ := findSuffixStart_bound r s i hfind
    have hi := hlt hn
    rw [List.length_take]
    exact lt_of_le_of_lt (min_le_left _ _) hi

theorem dropWhile_length_le (p : Char → Bool) (l : Str) :
    (l.dropWhile p).length ≤ l.length :=
  (List.dropWhile_suffix p).sublist.length_le

theorem dropWhile_eq_self_of_length (p : Char → Bool) (l : Str)
    (h : (l.dropWhile p).length = l.length) : l.dropWhile p = l :=
  (List.dropWhile_suffix p).eq_of_length h

theorem trimStr_length_le (s : Str) : (trimStr s).length ≤ s.length := by
  unfold trimStr
  calc ((s.dropWhile jsWhitespace).reverse.dropWhile jsWhitespace).reverse.length
      = ((s.dropWhile jsWhitespace).reverse.dropWhile jsWhitespace).length :=
        List.length_reverse _
    _ ≤ (s.dropWhile jsWhitespace).reverse.length := dropWhile_length_le _ _
    _ = (s.dropWhile jsWhitespace).length := List.length_reverse _
    _ ≤ s.length := dropWhile_length_le _ _

theorem trimStr_shrink (s : Str) :
    trimStr s = s ∨ (trimStr s).length < s.length := by
  rcases Nat.lt_or_ge (trimStr s).length s.length with hlt | hge
  · right; exact hlt
  · left
    have hEq : (trimStr s).length = s.length :=
      Nat.le_antisymm (trimStr_length_le s) hge
    have hBlen : ((s.dropWhile jsWhitespace).reverse.dropWhile jsWhitespace).length
        = s.length := by
      have h0 : trimStr s =
          ((s.dropWhile jsWhitespace).reverse.dropWhile jsWhitespace).reverse := rfl
      rw [h0, List.length_reverse] at hEq
      exact hEq
    have hALen : (s.dropWhile jsWhitespace).length = s.length := by
      have h1 := dropWhile_length_le jsWhitespace (s.dropWhile jsWhitespace).reverse
      have h2 := dropWhile_length_le jsWhitespace s
      rw [List.length_reverse] at h1
      omega
    have hAeq : s.dropWhile jsWhitespace = s :=
      dropWhile_eq_self_of_length _ _ hALen
    have hBeq : (s.dropWhile jsWhitespace).reverse.dropWhile jsWhitespace =
        (s.dropWhile jsWhitespace).reverse :=
      dropWhile_eq_self_of_length _ _ (by rw [List.length_reverse]; omega)
    show ((s.dropWhile jsWhitespace).reverse.dropWhile jsWhitespace).reverse = s
    rw [hBeq, List.reverse_reverse, hAeq]

theorem shrink_chain {a b c : Str} (h1 : b = a ∨ b.length < a.length)
    (h2 : c = b ∨ c.length < b.length) : c = a ∨ c.length < a.length := by
  rcases h1 with rfl | l1
  · exact h2
  · rcases h2 with rfl | l2
    · right; exact l1
    · right; omega

theorem stripSeasonSuffix_shrink (s : Str) :
    stripSeasonSuffix s = s ∨ (stripSeasonSuffix s).length < s.length := by
  unfold stripSeasonSuffix
  exact shrink_chain (shrink_chain (shrink_chain (shrink_chain (shrink_chain
    (shrink_chain (replaceSuffix_shrink seasonPat1 (by decide) s)
      (replaceSuffix_shrink seasonPat2 (by decide) _))
      (replaceSuffix_shrink seasonPat3 (by decide) _))
      (replaceSuffix_shrink seasonPat4 (by decide) _))
      (replaceSuffix_shrink seasonPat5 (by decide) _))
      (replaceSuffix_shrink seasonPat6 (by decide) _))
    (trimStr_shrink _)

/-- **C5 (amended)**: one application of `stripSeasonSuffix` either leaves
the title unchanged or strictly shortens it (it strips only the outermost
stacked suffix), so iterating it reaches a fixed point within
`x.length` steps — but a single application need not be idempotent. -/
theorem stripSeasonSuffix_iteration_stabilizes :
    ∀ x : Str,
      (stripSeasonSuffix x = x ∨ (stripSeasonSuffix x).length < x.length) ∧
      ∃ n, n ≤ x.length ∧
        stripSeasonSuffix^[n + 1] x = stripSeasonSuffix^[n] x := by
  have main : ∀ (N : Nat) (x : Str), x.length ≤ N →
      ∃ n, n ≤ x.length ∧
        stripSeasonSuffix^[n + 1] x = stripSeasonSuffix^[n] x := by
    intro N
    induction N with
    | zero =>
      intro x hx
      have hnil : x = [] := List.length_eq_zero.mp (Nat.le_zero.mp hx)
      subst hnil
      exact ⟨0, Nat.le_refl 0, by decide⟩
    | succ N ih =>
      intro x hx
      rcases stripSeasonSuffix_shrink x with heq | hlt
      · refine ⟨0, Nat.zero_le _, ?_⟩
        simpa [Function.iterate_one] using heq
      · obtain ⟨n, hn, hfix⟩ := ih (stripSeasonSuffix x) (by omega)
        refine ⟨n + 1, by omega, ?_⟩
        rw [Function.iterate_succ_apply stripSeasonSuffix (n + 1) x,
          Function.iterate_succ_apply stripSeasonSuffix n x]
        exact hfix
  intro x
  exact ⟨stripSeasonSuffix_shrink x, main x.length x (Nat.le_refl _)⟩

end Spectarr

namespace Spectarr

-- ─── Shared trivial oracles for concrete instantiations ───

def emptyGenres : GenreMap := fun _ => Option.none

def emptyMovieEnv : MovieEnv := ⟨fun _ _ => [], fun _ => Option.none⟩

def emptyTVEnv : TVEnv := ⟨fun _ _ => [], fun _ => Option.none⟩

-- ─── C2: the unmatched ⇒ all-null invariant ───────────────

/-- All catalog-derived fields null and source `none` (the spec §3
invariant for unmatched items). -/
def unmatchedAllNull (e : EnrichedItem) : Prop :=
  e.source = .none ∧ e.tmdbId = Option.none ∧ e.imdbId = Option.none ∧
  e.tvdbId = Option.none ∧ e.posterUrl = Option.none ∧
  e.overview = Option.none ∧ e.rating = Option.none ∧
  e.releaseDate = Option.none ∧ e.genres = Option.none ∧
  e.director = Option.none ∧ e.runtime = Option.none ∧
  e.network = Option.none ∧ e.seasons = Option.none ∧
  e.showStatus = Option.none

/-- The invariant weakened to the fields the Plex merge never touches:
everything except `imdbId` and `tvdbId`. -/
def unmatchedCatalogNullExceptIds (e : EnrichedItem) : Prop :=
  e.source = .none ∧ e.tmdbId = Option.none ∧ e.posterUrl = Option.none ∧
  e.overview = Option.none ∧ e.rating = Option.none ∧
  e.releaseDate = Option.none ∧ e.genres = Option.none ∧
  e.director = Option.none ∧ e.runtime = Option.none ∧
  e.network = Option.none ∧ e.seasons = Option.none ∧
  e.showStatus = Option.none

theorem buildUnmatched_allNull (item : LLMIdentifiedItem) :
    unmatchedAllNull (buildUnmatched item) := by
  simp [unmatchedAllNull, buildUnmatched]

theorem enrichSingleItem_unmatched_eq (g : GenreMap) (menv : MovieEnv)
    (tvenv : TVEnv) (item : LLMIdentifiedItem)
    (h : (enrichSingleItem g menv tvenv item).confidence = .unmatched) :
    enrichSingleItem g menv tvenv item = buildUnmatched item := by
  cases hty : item.type
  all_goals simp only [enrichSingleItem, hty] at h ⊢
  · exact enrichMovie_unmatched_eq g menv item h
  · exact enrichTV_unmatched_eq g tvenv item h
  · by_cases hm : (enrichMovie g menv item).confidence ≠ .unmatched
    · rw [if_pos hm] at h
      exact absurd h hm
    · rw [if_neg hm] at h ⊢
      by_cases ht : (enrichTV g tvenv item).confidence ≠ .unmatched
      · rw [if_pos ht] at h
        exact absurd h ht
      · rw [if_neg ht]

theorem enrichItemsFrom_unmatched_invariant (g : GenreMap) (menv : MovieEnv)
    (tvenv : TVEnv) (throws : Nat → Bool) :
    ∀ (items : List LLMIdentifiedItem) (i0 : Nat) (e : EnrichedItem),
      e ∈ enrichItemsFrom g menv tvenv throws items i0 →
      e.confidence = .unmatched → unmatchedAllNull e := by
  intro items
  induction items with
  | nil =>
    intro i0 e he
    simp [enrichItemsFrom] at he
  | cons it rest ih =>
    intro i0 e he hconf
    simp only [enrichItemsFrom, List.mem_cons] at he
    rcases he with rfl | he
    · by_cases hth : throws i0
      · rw [if_pos hth]
        exact buildUnmatched_allNull it
      · have hc : (enrichSingleItem g menv tvenv it).confidence = .unmatched := by
          rwa [if_neg hth] at hconf
        rw [if_neg hth, enrichSingleItem_unmatched_eq g menv tvenv it hc]
        exact buildUnmatched_allNull it
    · exact ih (i0 + 1) e he hconf

theorem tvdbAssign_unmatched_invariant (lookup : EnrichedItem → Option Int)
    (l : List EnrichedItem)
    (hInv : ∀ e ∈ l, e.confidence = .unmatched → unmatchedAllNull e) :
    ∀ e ∈ tvdbAssign lookup l, e.confidence = .unmatched → unmatchedAllNull e := by
  intro e he hconf
  unfold tvdbAssign at he
  obtain ⟨e0, he0, rfl⟩ := List.mem_map.mp he
  by_cases hu : e0.confidence = .unmatched
  · simp only [if_pos hu] at hconf ⊢
    exact hInv e0 he0 hu
  · simp only [if_neg hu] at hconf ⊢
    rcases hl : lookup e0 with _ | id
    · simp only [hl] at hconf ⊢
      exact hInv e0 he0 hconf
    · exact absurd (by simpa [hl] using hconf) hu

theorem plexMergeItem_preserves (plexItems : List PlexItem) (e : EnrichedItem) :
    (plexMergeItem plexItems e).confidence = e.confidence ∧
    (plexMergeItem plexItems e).source = e.source ∧
    (plexMergeItem plexItems e).tmdbId = e.tmdbId ∧
    (plexMergeItem plexItems e).posterUrl = e.posterUrl ∧
    (plexMergeItem plexItems e).overview = e.overview ∧
    (plexMergeItem plexItems e).rating = e.rating ∧
    (plexMergeItem plexItems e).releaseDate = e.releaseDate ∧
    (plexMergeItem plexItems e).genres = e.genres ∧
    (plexMergeItem plexItems e).director = e.director ∧
    (plexMergeItem plexItems e).runtime = e.runtime ∧
    (plexMergeItem plexItems e).network = e.network ∧
    (plexMergeItem plexItems e).seasons = e.seasons ∧
    (plexMergeItem plexItems e).showStatus = e.showStatus := by
  unfold plexMergeItem
  by_cases hm : (matchWithPlex e.title e.year plexItems).matched <;>
    simp [hm]

/-- The scan pipeline after vision identification, as persisted: TMDB
enrichment (with per-item failure isolation), the supplemental TVDB pass,
then the Plex cross-reference. -/
def scanEnrichedItems (g : GenreMap) (menv : MovieEnv) (tvenv : TVEnv)
    (throws : Nat → Bool) (items : List LLMIdentifiedItem)
    (lookup : EnrichedItem → Option Int) (plexItems : List PlexItem) :
    List EnrichedItem :=
  plexStep plexItems (tvdbAssign lookup (enrichItemsCore g menv tvenv throws items))

def c2item : LLMIdentifiedItem := ⟨"abbey road".toList, [], .vinyl, Option.none⟩

def c2plex : List PlexItem :=
  [⟨"42".toList, "Abbey Road".toList, Option.none,
    ⟨some ("tt0000001".toList), Option.none, Option.none⟩, .movie⟩]

def c2out : List EnrichedItem :=
  scanEnrichedItems emptyGenres emptyMovieEnv emptyTVEnv (fun _ => false)
    [c2item] (fun _ => Option.none) c2plex

/-- **C2 counterexample**: after the Plex cross-reference step of a scan, an
unmatched item whose title matches a personal-library entry carries that
entry's IMDB id while its confidence is still `unmatched` and its source is
still `none` — so "all catalog fields are null" fails for `imdbId`. -/
theorem unmatched_invariant_cex :
    c2out.map (fun e => (e.confidence, e.imdbId, e.source)) =
      [(.unmatched, some ("tt0000001".toList), .none)] := by decide

/-- **C2 (amended)**: after TMDB enrichment and the supplemental TVDB pass,
an unmatched item has all catalog fields null and source `none`; the Plex
cross-reference preserves confidence, source and every catalog field except
`imdbId`/`tvdbId`, which it may fill from the personal library even for an
unmatched item (the single-item edit route repeats the same merge). -/
theorem unmatched_invariant_amended (g : GenreMap) (menv : MovieEnv)
    (tvenv : TVEnv) (throws : Nat → Bool) (items : List LLMIdentifiedItem)
    (lookup : EnrichedItem → Option Int) (plexItems : List PlexItem) :
    (∀ e ∈ tvdbAssign lookup (enrichItemsCore g menv tvenv throws items),
      e.confidence = .unmatched → unmatchedAllNull e) ∧
    (∀ e ∈ scanEnrichedItems g menv tvenv throws items lookup plexItems,
      e.confidence = .unmatched → unmatchedCatalogNullExceptIds e) := by
  have h1 : ∀ e ∈ tvdbAssign lookup (enrichItemsCore g menv tvenv throws items),
      e.confidence = .unmatched → unmatchedAllNull e :=
    tvdbAssign_unmatched_invariant lookup _
      (fun e he => enrichItemsFrom_unmatched_invariant g menv tvenv throws items 0 e he)
  refine ⟨h1, ?_⟩
  intro e he hconf
  unfold scanEnrichedItems plexStep at he
  obtain ⟨e0, he0, rfl⟩ := List.mem_map.mp he
  obtain ⟨hcp, hsrc, htm, hpo, hov, hra, hre, hge, hdi, hru, hne, hse, hss⟩ :=
    plexMergeItem_preserves plexItems e0
  have hu0 : e0.confidence = .unmatched := by rw [← hcp]; exact hconf
  obtain ⟨a1, a2, _, _, a5, a6, a7, a8, a9, a10, a11, a12, a13, a14⟩ :=
    h1 e0 he0 hu0
  exact ⟨by rw [hsrc]; exact a1, by rw [htm]; exact a2, by rw [hpo]; exact a5,
    by rw [hov]; exact a6, by rw [hra]; exact a7, by rw [hre]; exact a8,
    by rw [hge]; exact a9, by rw [hdi]; exact a10, by rw [hru]; exact a11,
    by rw [hne]; exact a12, by rw [hse]; exact a13, by rw [hss]; exact a14⟩

theorem unmatched_invariant_amended_witness :
    unmatchedCatalogNullExceptIds (c2out.headD (buildUnmatched c2item)) := by
  have h := (unmatched_invariant_amended emptyGenres emptyMovieEnv emptyTVEnv
    (fun _ => false) [c2item] (fun _ => Option.none) c2plex).2
  exact h (c2out.headD (buildUnmatched c2item)) (by decide) (by decide)

-- ─── C3: index alignment and failure isolation ────────────

theorem enrichItemsFrom_length (g : GenreMap) (menv : MovieEnv) (tvenv : TVEnv)
    (throws : Nat → Bool) :
    ∀ (items : List LLMIdentifiedItem) (i0 : Nat),
      (enrichItemsFrom g menv tvenv throws items i0).length = items.length := by
  intro items
  induction items with
  | nil => intro i0; rfl
  | cons it rest ih =>
    intro i0
    simp [enrichItemsFrom, ih]

theorem enrichItemsFrom_get? (g : GenreMap) (menv : MovieEnv) (tvenv : TVEnv)
    (throws : Nat → Bool) :
    ∀ (items : List LLMIdentifiedItem) (i0 i : Nat) (it : LLMIdentifiedItem),
      items.get? i = some it →
      (enrichItemsFrom g menv tvenv throws items i0).get? i =
        some (if throws (i0 + i) then buildUnmatched it
              else enrichSingleItem g menv tvenv it) := by
  intro items
  induction items with
  | nil =>
    intro i0 i it h
    simp at h
  | cons a rest ih =>
    intro i0 i it h
    cases i with
    | zero =>
      simp only [List.get?_cons_zero, Option.some.injEq] at h
      subst h
      simp [enrichItemsFrom]
    | succ n =>
      rw [List.get?_cons_succ] at h
      have hrec := ih (i0 + 1) n it h
      show (enrichItemsFrom g menv tvenv throws (a :: rest) i0).get? (n + 1) = _
      simp only [enrichItemsFrom, List.get?_cons_succ]
      have harith : i0 + 1 + n = i0 + (n + 1) := by omega
      rw [harith] at hrec
      exact hrec

/-- **C3**: enrichment of N identified items yields exactly N enriched
items; slot `i` is the enrichment of input `i` when its resolution settled,
and the unmatched record built from input `i` when it threw; every
non-throwing slot equals what it would be had no item thrown. -/
theorem enrichment_index_alignment (g : GenreMap) (menv : MovieEnv)
    (tvenv : TVEnv) (throws : Nat → Bool) (items : List LLMIdentifiedItem) :
    (enrichItemsCore g menv tvenv throws items).length = items.length ∧
    (∀ i it, items.get? i = some it →
      (enrichItemsCore g menv tvenv throws items).get? i =
        some (if throws i then buildUnmatched it
              else enrichSingleItem g menv tvenv it)) ∧
    (∀ i it, items.get? i = some it → throws i = false →
      (enrichItemsCore g menv tvenv throws items).get? i =
        (enrichItemsCore g menv tvenv (fun _ => false) items).get? i) := by
  refine ⟨enrichItemsFrom_length g menv tvenv throws items 0, ?_, ?_⟩
  · intro i it h
    have h1 := enrichItemsFrom_get? g menv tvenv throws items 0 i it h
    simpa using h1
  · intro i it h hf
    have h1 := enrichItemsFrom_get? g menv tvenv throws items 0 i it h
    have h2 := enrichItemsFrom_get? g menv tvenv (fun _ => false) items 0 i it h
    simp only [Nat.zero_add] at h1 h2
    unfold enrichItemsCore
    rw [h1, h2, hf]

def c3items : List LLMIdentifiedItem :=
  [⟨"v".toList, [], .vinyl, Option.none⟩, ⟨"w".toList, [], .game, Option.none⟩]

def c3throws : Nat → Bool := fun i => i = 0

theorem enrichment_index_alignment_witness :
    (enrichItemsCore emptyGenres emptyMovieEnv emptyTVEnv c3throws c3items).length = 2 ∧
    (enrichItemsCore emptyGenres emptyMovieEnv emptyTVEnv c3throws c3items).get? 0 =
      some (buildUnmatched ⟨"v".toList, [], .vinyl, Option.none⟩) := by
  have h := enrichment_index_alignment emptyGenres emptyMovieEnv emptyTVEnv
    c3throws c3items
  constructor
  · simpa using h.1
  · have h0 := h.2.1 0 ⟨"v".toList, [], .vinyl, Option.none⟩ (by decide)
    simpa [c3throws] using h0

end Spectarr

namespace Spectarr

-- ─── C9: vision-response parsing policy ───────────────────

theorem parseValue_backtick (f : Nat) (s : Str) :
    parseValue f (backtick :: s) = Option.none := by
  cases f with
  | zero => rfl
  | succ f => rfl

theorem jsonParse_backtick (s : Str) :
    jsonParse (backtick :: s) = Option.none := by
  unfold jsonParse
  have h1 : (backtick :: s).dropWhile jsonWs = backtick :: s := by
    rw [List.dropWhile_cons, if_neg (by decide)]
  rw [h1, parseValue_backtick]

theorem isPrefixOf_append_self (p t : Str) : p.isPrefixOf (p ++ t) = true := by
  induction p with
  | nil => exact List.isPrefixOf_nil_left
  | cons c p' ih =>
    rw [List.cons_append, List.isPrefixOf_cons₂, ih]
    simp

theorem splitAtSub_append_self (delim r : Str) (hne : delim ≠ []) :
    splitAtSub delim (delim ++ r) = some ([], r) := by
  cases delim with
  | nil => exact absurd rfl hne
  | cons d ds =>
    show splitAtSub (d :: ds) (d :: (ds ++ r)) = some ([], r)
    unfold splitAtSub
    have hp : (d :: ds).isPrefixOf (d :: (ds ++ r)) = true := by
      have h0 := isPrefixOf_append_self (d :: ds) r
      rwa [List.cons_append] at h0
    rw [if_pos hp]
    simp [List.drop_succ_cons, List.drop_left]

theorem splitAtSub_fence_clean : ∀ (p r : Str), (∀ c ∈ p, c ≠ backtick) →
    splitAtSub fenceDelim (p ++ '\n' :: fenceDelim ++ r) = some (p ++ ['\n'], r) := by
  intro p
  induction p with
  | nil =>
    intro r _
    show splitAtSub fenceDelim ('\n' :: (fenceDelim ++ r)) = some (['\n'], r)
    have hno : fenceDelim.isPrefixOf ('\n' :: (fenceDelim ++ r)) = false := by
      show ((backtick == '\n') && _) = false
      rw [show (backtick == '\n') = false from by decide]
      rfl
    unfold splitAtSub
    rw [if_neg (by rw [hno]; exact Bool.false_ne_true)]
    rw [splitAtSub_append_self fenceDelim r (by decide)]
    rfl
  | cons c p' ih =>
    intro r hcl
    have hc : c ≠ backtick := hcl c (List.mem_cons_self c p')
    have hih := ih r (fun x hx => hcl x (List.mem_cons_of_mem c hx))
    show splitAtSub fenceDelim (c :: (p' ++ '\n' :: fenceDelim ++ r)) =
      some (c :: (p' ++ ['\n']), r)
    have hpf : fenceDelim.isPrefixOf (c :: (p' ++ '\n' :: fenceDelim ++ r)) = false := by
      show ((backtick == c) && _) = false
      rw [beq_eq_false_iff_ne.mpr (Ne.symm hc)]
      rfl
    unfold splitAtSub
    rw [if_neg (by rw [hpf]; exact Bool.false_ne_true), hih]
    rfl

theorem trimmed_head_not_ws (p : Str) (h : trimStr p = p) :
    p.dropWhile jsWhitespace = p ∧
    p.reverse.dropWhile jsWhitespace = p.reverse := by
  have hlen : (trimStr p).length = p.length := by rw [h]
  have hBlen : ((p.dropWhile jsWhitespace).reverse.dropWhile jsWhitespace).length
      = p.length := by
    have h0 : trimStr p =
        ((p.dropWhile jsWhitespace).reverse.dropWhile jsWhitespace).reverse := rfl
    rw [h0, List.length_reverse] at hlen
    exact hlen
  have hALen : (p.dropWhile jsWhitespace).length = p.length := by
    have h1 := dropWhile_length_le jsWhitespace (p.dropWhile jsWhitespace).reverse
    have h2 := dropWhile_length_le jsWhitespace p
    rw [List.length_reverse] at h1
    omega
  have hAeq : p.dropWhile jsWhitespace = p := dropWhile_eq_self_of_length _ _ hALen
  refine ⟨hAeq, ?_⟩
  have hBeq : (p.dropWhile jsWhitespace).reverse.dropWhile jsWhitespace =
      (p.dropWhile jsWhitespace).reverse :=
    dropWhile_eq_self_of_length _ _ (by rw [List.length_reverse]; omega)
  rw [hAeq] at hBeq
  exact hBeq

theorem dropWhile_append_of_head (p t : Str)
    (hp : p.dropWhile jsWhitespace = p) (hne : p ≠ []) :
    (p ++ t).dropWhile jsWhitespace = p ++ t := by
  cases p with
  | nil => exact absurd rfl hne
  | cons c p' =>
    have hc : jsWhitespace c = false := by
      by_contra hcc
      rw [Bool.not_eq_false] at hcc
      rw [List.dropWhile_cons, if_pos hcc] at hp
      have hlen := dropWhile_length_le jsWhitespace p'
      rw [hp] at hlen
      simp at hlen
    simp [List.dropWhile_cons, hc]

theorem trimStr_append_newline (p : Str) (htrim : trimStr p = p) (hne : p ≠ []) :
    trimStr (p ++ ['\n']) = p := by
  obtain ⟨hA, hB⟩ := trimmed_head_not_ws p htrim
  unfold trimStr
  rw [dropWhile_append_of_head p ['\n'] hA hne]
  rw [List.reverse_append]
  simp only [List.reverse_cons, List.reverse_nil, List.nil_append,
    List.singleton_append]
  rw [List.dropWhile_cons, if_pos (by decide), hB, List.reverse_reverse]

/-- A response that wraps `p` in a ` ```json ` markdown fence. -/
def fenceWrap (p : Str) : Str :=
  fenceDelim ++ ("json".toList ++ ('\n' :: (p ++ ('\n' :: fenceDelim))))

theorem extractFenced_wrap (payload : Str)
    (hhead : payload.dropWhile jsWhitespace = payload)
    (hne : payload ≠ []) (hcl : ∀ c ∈ payload, c ≠ backtick) :
    extractFenced (fenceWrap payload) = some (payload ++ ['\n']) := by
  unfold extractFenced fenceWrap
  have h1 : splitAtSub fenceDelim (fenceDelim ++ ("json".toList ++
      ('\n' :: (payload ++ ('\n' :: fenceDelim))))) =
      some ([], "json".toList ++ ('\n' :: (payload ++ ('\n' :: fenceDelim)))) :=
    splitAtSub_append_self fenceDelim _ (by decide)
  rw [h1, Option.some_bind]
  have h2 : (("json".toList).isPrefixOf ("json".toList ++
      ('\n' :: (payload ++ ('\n' :: fenceDelim))))) = true :=
    isPrefixOf_append_self ("json".toList) _
  rw [if_pos h2]
  have h3 : ("json".toList ++ ('\n' :: (payload ++ ('\n' :: fenceDelim)))).drop 4 =
      '\n' :: (payload ++ ('\n' :: fenceDelim)) := rfl
  rw [h3]
  have h4 : ('\n' :: (payload ++ ('\n' :: fenceDelim))).dropWhile jsWhitespace =
      payload ++ ('\n' :: fenceDelim) := by
    rw [List.dropWhile_cons, if_pos (by decide)]
    exact dropWhile_append_of_head payload ('\n' :: fenceDelim) hhead hne
  rw [h4]
  have h5 := splitAtSub_fence_clean payload [] hcl
  rw [List.append_nil] at h5
  rw [h5, Option.map_some']

/-- **C9**: `tryParseJson` first attempts a direct `JSON.parse`; when the
response is a valid (trimmed, backtick-free) JSON payload wrapped in a
markdown ` ```json ` fence, the direct parse fails, the first fenced block
is extracted, and parsing its trimmed contents succeeds with exactly the
value the bare payload would produce — so the fenced response is handled
in the same parse attempt, with no retry. -/
theorem vision_response_parse_policy (payload : Str) (v : JsonVal)
    (htrim : trimStr payload = payload)
    (hcl : ∀ c ∈ payload, c ≠ backtick)
    (hp : jsonParse payload = some v) :
    tryParseJson payload = some v ∧
    tryParseJson (fenceWrap payload) = some v := by
  have hne : payload ≠ [] := by
    intro hnil
    rw [hnil] at hp
    have h0 : jsonParse ([] : Str) = Option.none := rfl
    rw [h0] at hp
    cases hp
  constructor
  · unfold tryParseJson
    rw [hp]
  · unfold tryParseJson
    have hfence : jsonParse (fenceWrap payload) = Option.none :=
      jsonParse_backtick _
    rw [hfence]
    show (match extractFenced (fenceWrap payload) with
      | some inner => jsonParse (trimStr inner)
      | Option.none => Option.none) = some v
    rw [extractFenced_wrap payload (trimmed_head_not_ws payload htrim).1
      hne hcl]
    show jsonParse (trimStr (payload ++ ['\n'])) = some v
    rw [trimStr_append_newline payload htrim hne]
    exact hp

theorem vision_response_parse_policy_witness :
    tryParseJson ("null".toList) = some .null ∧
    tryParseJson (fenceWrap ("null".toList)) = some .null :=
  vision_response_parse_policy ("null".toList) .null rfl (by decide) rfl

end Spectarr
